import Mathlib

/-!
# SkillSync: the introductory form page

A verification development for `frontend/src/pages/IntroductoryFormPage.js`:
the React component that collects a profile draft, reconciles the
country / state / city selection through three effects, and submits the draft.

The component is embedded as explicit state passing.  A committed render is a
`Comp`; `round` runs the effects whose dependency arrays changed, all reading
the state of that render and queueing their updates; `settle` repeats rounds
until no effect is pending.  Event handlers are functions on the state of the
render they were created in.  The rendered form is embedded as far as it decides
whether a submit can happen (`render`): the controls with their `required` and
`disabled` attributes and the submit button.

The `country-state-city` package and the `useAuth` hook are outside the file:
the reference data is a parameter (`LocationIndex`), the profile and the outcome
of `updateProfile` are inputs of the events.

JavaScript built-ins used by the page (`String.prototype.trim`, `split`,
`join`, `Number`, `||`) are modelled after ECMAScript; `Number` rounds to
binary64 as engines do, from the exact value of the text.  Strings are sequences
of characters; all separators and white space involved lie in the Basic
Multilingual Plane, so working with code points instead of UTF-16 code units
changes nothing.  Textual fields of a profile are strings when present; the
age is text or a number.
-/

namespace SkillSync

/-! ## JavaScript strings -/

/-- White space and line terminators of ECMAScript: what `trim` strips and what
`Number` skips around a numeric literal. -/
def isJsWhiteSpace (c : Char) : Bool :=
  let n := c.toNat
  n == 0x09 || n == 0x0A || n == 0x0B || n == 0x0C || n == 0x0D || n == 0x20 ||
  n == 0xA0 || n == 0x1680 || (0x2000 ≤ n && n ≤ 0x200A) || n == 0x2028 ||
  n == 0x2029 || n == 0x202F || n == 0x205F || n == 0x3000 || n == 0xFEFF

/-- The characters of `s.trim()`. -/
def trimChars (l : List Char) : List Char :=
  ((l.dropWhile isJsWhiteSpace).reverse.dropWhile isJsWhiteSpace).reverse

/-- The method `String.prototype.trim`. -/
def jsTrim (s : String) : String := String.mk (trimChars s.data)

/-- The characters of the pieces of `s.split(' ')`: always at least one piece. -/
def splitSpaceChars : List Char → List (List Char)
  | [] => [[]]
  | c :: cs =>
    if c = ' ' then [] :: splitSpaceChars cs
    else
      match splitSpaceChars cs with
      | [] => [[c]]
      | p :: ps => (c :: p) :: ps

/-- The call `s.split(' ')`. -/
def jsSplitSpace (s : String) : List String := (splitSpaceChars s.data).map String.mk

/-- The call `parts.join(' ')`. -/
def jsJoinSpace : List String → String
  | [] => ""
  | [p] => p
  | p :: q :: ps => p ++ " " ++ jsJoinSpace (q :: ps)

/-! ## JavaScript numbers -/

/-- A Number: `NaN`, an infinity, or the finite binary64 value
`(-1)^neg * sig * 2^exp`.  The values computed here are in lowest form: `exp ≤ 0`,
and `sig` is odd when `exp < 0`; a whole number `n` is `fin false n 0`, and the
two zeros are `fin false 0 0` and `fin true 0 0`. -/
inductive JsNum where
  | nan
  | inf (neg : Bool)
  | fin (neg : Bool) (sig : Nat) (exp : Int)
deriving DecidableEq

/-- Whether the Number is `+0` or `-0`. -/
def JsNum.isZero : JsNum → Bool
  | .fin _ sig _ => sig == 0
  | _ => false

/-- The abstract operation `ToBoolean` on a Number: `NaN` and the zeros are falsy. -/
def JsNum.truthy : JsNum → Bool
  | .nan => false
  | n => !n.isZero

def bitLengthAux : Nat → Nat → Nat
  | 0, _ => 0
  | fuel + 1, n => if n = 0 then 0 else bitLengthAux fuel (n / 2) + 1

/-- The number of binary digits of `n`: the least `l` with `n < 2^l`. -/
def bitLength (n : Nat) : Nat := bitLengthAux n n

/-- The integer nearest to `num / den`, the even one of two equally near. -/
def roundHalfEven (num den : Nat) : Nat :=
  if 2 * (num % den) < den then num / den
  else if den < 2 * (num % den) then num / den + 1
  else if num / den % 2 = 0 then num / den
  else num / den + 1

/-- Lowest form of `sig * 2^(-j)`: halve `sig` while it is even and `j` is positive. -/
def reduceTwos : Nat → Nat → Nat × Nat
  | sig, 0 => (sig, 0)
  | sig, j + 1 => if sig % 2 = 0 then reduceTwos (sig / 2) j else (sig, j + 1)

/-- The integer part of the binary logarithm of `a / b`, for positive `a` and `b`. -/
def floorLog2 (a b : Nat) : Int :=
  let d : Int := (bitLength a : Int) - (bitLength b : Int)
  if (0 ≤ d ∧ b * 2 ^ d.toNat ≤ a) ∨ (d < 0 ∧ b ≤ a * 2 ^ (-d).toNat) then d else d - 1

/-- The Number value for the mathematical value `±a / b` (with `b` positive): the
binary64 value nearest to it, the one with even significand of two equally
near.  With `k` the exponent of the last place (53 significant bits, and never
below `-1074`), the significand is `a / (b * 2^k)` rounded to a whole number; a
result of magnitude `2^1024` or more is an infinity. -/
def binary64 (neg : Bool) (a b : Nat) : JsNum :=
  if a = 0 then .fin neg 0 0
  else
    let k : Int := max (floorLog2 a b - 52) (-1074)
    if 0 ≤ k then
      let sig := roundHalfEven a (b * 2 ^ k.toNat)
      if 2 ^ 1024 ≤ sig * 2 ^ k.toNat then .inf neg else .fin neg (sig * 2 ^ k.toNat) 0
    else
      let r := reduceTwos (roundHalfEven (a * 2 ^ (-k).toNat) b) (-k).toNat
      .fin neg r.1 (-(r.2 : Int))

/-- The Number value for the decimal `±m * 10^e`. -/
def decimalValue (neg : Bool) (m : Nat) (e : Int) : JsNum :=
  if 0 ≤ e then binary64 neg (m * 10 ^ e.toNat) 1 else binary64 neg m (10 ^ (-e).toNat)

/-- A decimal digit, `0` to `9` (code points 48 to 57). -/
def isDecDigit (c : Char) : Bool := decide (48 ≤ c.toNat) && decide (c.toNat ≤ 57)

/-- A hexadecimal digit: a decimal digit, `a` to `f` (97 to 102) or `A` to `F`
(65 to 70). -/
def isHexDigit (c : Char) : Bool :=
  isDecDigit c || (decide (97 ≤ c.toNat) && decide (c.toNat ≤ 102)) ||
    (decide (65 ≤ c.toNat) && decide (c.toNat ≤ 70))

/-- An octal digit, `0` to `7`. -/
def isOctDigit (c : Char) : Bool := decide (48 ≤ c.toNat) && decide (c.toNat ≤ 55)

/-- A binary digit, `0` or `1`. -/
def isBinDigit (c : Char) : Bool := decide (48 ≤ c.toNat) && decide (c.toNat ≤ 49)

/-- Value of one digit character in any base up to sixteen. -/
def digitVal (c : Char) : Nat :=
  if isDecDigit c then c.toNat - 48
  else if decide (97 ≤ c.toNat) && decide (c.toNat ≤ 102) then c.toNat - 87
  else c.toNat - 55

/-- Value of a digit sequence, most significant digit first. -/
def digitsVal (base : Nat) (ds : List Char) : Nat :=
  ds.foldl (fun acc c => acc * base + digitVal c) 0

/-- The production `NonDecimalIntegerLiteral` after its `0b`, `0o` or `0x` prefix. -/
def parseRadix (base : Nat) (ok : Char → Bool) (ds : List Char) : JsNum :=
  if ds ≠ [] ∧ ds.all ok then binary64 false (digitsVal base ds) 1 else .nan

/-- The production `ExponentPart` after its `e` or `E`: a signed integer. -/
def parseExponent (l : List Char) : Option Int :=
  let signed : Bool × List Char :=
    match l with
    | '+' :: t => (false, t)
    | '-' :: t => (true, t)
    | _ => (false, l)
  if signed.2 ≠ [] ∧ signed.2.all isDecDigit then
    some (if signed.1 then -(digitsVal 10 signed.2 : Int) else (digitsVal 10 signed.2 : Int))
  else none

/-- The production `StrUnsignedDecimalLiteral` without `Infinity`: digits, an
optional fraction, an optional exponent; at least one digit before the exponent. -/
def parseUnsignedDecimal (neg : Bool) (l : List Char) : JsNum :=
  let ip := l.takeWhile isDecDigit
  let rest := l.dropWhile isDecDigit
  let frac : List Char × List Char :=
    match rest with
    | '.' :: r => (r.takeWhile isDecDigit, r.dropWhile isDecDigit)
    | _ => ([], rest)
  if ip = [] ∧ frac.1 = [] then .nan
  else
    match frac.2 with
    | [] => decimalValue neg (digitsVal 10 (ip ++ frac.1)) (-(frac.1.length : Int))
    | e :: r =>
      if e = 'e' ∨ e = 'E' then
        match parseExponent r with
        | some x => decimalValue neg (digitsVal 10 (ip ++ frac.1)) (x - (frac.1.length : Int))
        | none => .nan
      else .nan

/-- The production `StrDecimalLiteral`: an optional sign, then `Infinity` or an
unsigned decimal literal. -/
def parseDecimal (t : List Char) : JsNum :=
  let signed : Bool × List Char :=
    match t with
    | '+' :: r => (false, r)
    | '-' :: r => (true, r)
    | _ => (false, t)
  if signed.2 = "Infinity".data then .inf signed.1 else parseUnsignedDecimal signed.1 signed.2

/-- The abstract operation `StringToNumber`: white space is stripped, the empty
string is zero, a binary, octal or hexadecimal integer literal or a decimal
literal is the Number value for its mathematical value, anything else is `NaN`. -/
def stringToNumber (s : String) : JsNum :=
  match trimChars s.data with
  | [] => .fin false 0 0
  | '0' :: 'b' :: r => parseRadix 2 isBinDigit r
  | '0' :: 'B' :: r => parseRadix 2 isBinDigit r
  | '0' :: 'o' :: r => parseRadix 8 isOctDigit r
  | '0' :: 'O' :: r => parseRadix 8 isOctDigit r
  | '0' :: 'x' :: r => parseRadix 16 isHexDigit r
  | '0' :: 'X' :: r => parseRadix 16 isHexDigit r
  | t => parseDecimal t

/-- The characters of an optional sign: `some true` is `-`, `some false` is `+`. -/
def signChars : Option Bool → List Char
  | none => []
  | some false => ['+']
  | some true => ['-']

/-- Decimal numeric text: an optional sign, digits, an optional point followed by
digits, an optional exponent (its letter in upper case or not, its sign, its
digits). -/
structure Numeral where
  sign : Option Bool
  intDigits : List Char
  fracDigits : Option (List Char)
  exponent : Option (Bool × Option Bool × List Char)

/-- The characters a numeral is written with: digits, the point, the exponent
letter and the signs. -/
def isNumeralChar (c : Char) : Bool :=
  isDecDigit c || c == '.' || c == 'e' || c == 'E' || c == '+' || c == '-'

/-- The characters of the fraction part of a numeral. -/
def Numeral.fracChars (n : Numeral) : List Char :=
  match n.fracDigits with
  | some f => '.' :: f
  | none => []

/-- The characters of the exponent part of a numeral. -/
def Numeral.expChars (n : Numeral) : List Char :=
  match n.exponent with
  | some (upper, s, ds) => (if upper then 'E' else 'e') :: (signChars s ++ ds)
  | none => []

/-- The text of a numeral. -/
def Numeral.text (n : Numeral) : String :=
  String.mk (signChars n.sign ++ (n.intDigits ++ (n.fracChars ++ n.expChars)))

/-- A numeral is well formed when its digits are decimal digits, it has a digit
before or after the point, and an exponent has a digit. -/
def Numeral.WellFormed (n : Numeral) : Prop :=
  (∀ c ∈ n.intDigits, isDecDigit c = true) ∧
  (∀ f, n.fracDigits = some f → ∀ c ∈ f, isDecDigit c = true) ∧
  (n.intDigits ≠ [] ∨ ∃ f, n.fracDigits = some f ∧ f ≠ []) ∧
  (∀ upper s ds, n.exponent = some (upper, s, ds) →
    ds ≠ [] ∧ ∀ c ∈ ds, isDecDigit c = true)

/-- The digits of a numeral read as one whole number, the point left out. -/
def Numeral.mantissa (n : Numeral) : Nat :=
  digitsVal 10 (n.intDigits ++ n.fracDigits.getD [])

/-- The power of ten by which the mantissa is scaled: the exponent written, less
the number of digits after the point. -/
def Numeral.exp10 (n : Numeral) : Int :=
  (match n.exponent with
    | some (_, some true, ds) => -(digitsVal 10 ds : Int)
    | some (_, _, ds) => (digitsVal 10 ds : Int)
    | none => 0) - ((n.fracDigits.getD []).length : Int)

/-- The number a numeral denotes, `±mantissa * 10^exp10`, as a Number. -/
def Numeral.value (n : Numeral) : JsNum :=
  decimalValue (n.sign == some true) n.mantissa n.exp10

/-- A value held in the `age` field: text typed into the input, or the number
stored in the profile. -/
inductive JsVal where
  | str (s : String)
  | num (n : JsNum)
deriving DecidableEq

/-- The abstract operation `ToBoolean`: the empty string, `NaN` and zero are falsy. -/
def JsVal.truthy : JsVal → Bool
  | .str s => s != ""
  | .num n => n.truthy

/-- The call `Number(v)`. -/
def jsNumber : JsVal → JsNum
  | .str s => stringToNumber s
  | .num n => n

/-- The expression `x || d` for a text field that is a string when present:
an absent or empty `x` gives `d`. -/
def orElse (x : Option String) (d : String) : String :=
  match x with
  | some s => if s = "" then d else s
  | none => d

/-! ## Reference data and records -/

/-- An entry of `State.getStatesOfCountry`: the page reads `name` and `isoCode`. -/
structure StateEntry where
  name : String
  isoCode : String
deriving DecidableEq

/-- An entry of `City.getCitiesOfState`: the page reads `name`. -/
structure CityEntry where
  name : String
deriving DecidableEq

/-- The two lookups imported from the `country-state-city` package.  The
package is outside the repository, so its data is a parameter of the model. -/
structure LocationIndex where
  getStatesOfCountry : String → List StateEntry
  getCitiesOfState : String → String → List CityEntry

/-- The `user` record supplied by `useAuth`.  A field is `none` when the record
lacks it (`undefined` or `null`); textual fields are strings when present. -/
structure Profile where
  firstName : Option String
  lastName : Option String
  name : Option String
  age : Option JsVal
  gender : Option String
  education_level : Option String
  country : Option String
  state : Option String
  city : Option String
deriving DecidableEq

/-- The `formData` state: the draft being edited. -/
structure FormData where
  firstName : String
  lastName : String
  age : JsVal
  gender : String
  education_level : String
  country : String
  state : String
  city : String
deriving DecidableEq

/-- The object `profileData` handed to `updateProfile`: the spread of
`formData` with `name` added and `age` replaced (`none` is `null`). -/
structure Payload where
  firstName : String
  lastName : String
  gender : String
  education_level : String
  country : String
  state : String
  city : String
  name : String
  age : Option JsNum
deriving DecidableEq

/-- The `name` attributes of the inputs wired to `handleChange`. -/
inductive Field where
  | firstName | lastName | age | gender | education_level | state | city
deriving DecidableEq

/-- An error object that `updateProfile` rejects with, read as
`err.response?.data?.message`. -/
structure ErrorData where
  message : Option String
deriving DecidableEq

structure ErrorResponse where
  data : Option ErrorData
deriving DecidableEq

structure SubmitError where
  response : Option ErrorResponse
deriving DecidableEq

/-! ## The component -/

/-- One committed render of `IntroductoryFormPage`: the `useAuth` value, the six
`useState` cells, the dependency arrays seen by the three effects when they last
ran (`none` before the first run), and a record of the calls made to the two
collaborators.  `userId` and `statesId` stand for object identity, which is how
React compares the dependencies `user` and `states`: every delivery of a
profile and every `setStates` call carries a fresh object. -/
structure Comp where
  user : Option Profile
  userId : Nat
  formData : FormData
  states : List StateEntry
  statesId : Nat
  cities : List CityEntry
  selectedStateCode : String
  loading : Bool
  error : Option String
  seen1 : Option String
  seen2 : Option Nat
  seen3 : Option (Nat × String × String)
  sent : List Payload
  inFlight : Nat
  navigations : Nat
deriving DecidableEq

/-- The initial values of the `useState` cells, before any effect has run. -/
def initial (user : Option Profile) : Comp :=
  { user := user
    userId := 0
    formData :=
      { firstName := "", lastName := "", age := .str "", gender := "Prefer not to say",
        education_level := "", country := "", state := "", city := "" }
    states := []
    statesId := 0
    cities := []
    selectedStateCode := ""
    loading := false
    error := none
    seen1 := none
    seen2 := none
    seen3 := none
    sent := []
    inFlight := 0
    navigations := 0 }

/-- Effect 1: load the states only if India is selected.  It reads the render
`snap` and queues its update on `acc`. -/
def effect1 (R : LocationIndex) (snap acc : Comp) : Comp :=
  if snap.formData.country = "India" then
    { acc with states := R.getStatesOfCountry "IN", statesId := acc.statesId + 1 }
  else
    { acc with states := [], statesId := acc.statesId + 1 }

/-- The updater passed to `setFormData` by Effect 2. -/
def prefill (user : Profile) (prev : FormData) : FormData :=
  { prev with
    firstName :=
      orElse user.firstName
        (match user.name with
         | some n => if n = "" then "" else (jsSplitSpace n).headD ""
         | none => "")
    lastName :=
      orElse user.lastName
        (match user.name with
         | some n => if n = "" then "" else jsJoinSpace ((jsSplitSpace n).drop 1)
         | none => "")
    age :=
      match user.age with
      | some v => if v.truthy then v else .str ""
      | none => .str ""
    gender := orElse user.gender "Prefer not to say"
    education_level := orElse user.education_level ""
    country := orElse user.country ""
    state := orElse user.state ""
    city := orElse user.city "" }

/-- Effect 2: pre-fill the form when the user data loads. -/
def effect2 (snap acc : Comp) : Comp :=
  match snap.user with
  | some user => { acc with formData := prefill user acc.formData }
  | none => acc

/-- Effect 3: pre-select the dropdowns if the country is India, the states are
loaded and a state name exists. -/
def effect3 (R : LocationIndex) (snap acc : Comp) : Comp :=
  if snap.formData.country = "India" ∧ snap.states.length > 0 ∧ snap.formData.state ≠ "" then
    match snap.states.find? (fun s => s.name == snap.formData.state) with
    | some userState =>
      { acc with
        selectedStateCode := userState.isoCode
        cities := R.getCitiesOfState "IN" userState.isoCode }
    | none => acc
  else acc

/-- Whether some effect has a changed dependency array, so that it runs after
this render. -/
def pending (c : Comp) : Bool :=
  decide (c.seen1 ≠ some c.formData.country) ||
  decide (c.seen2 ≠ some c.userId) ||
  decide (c.seen3 ≠ some (c.statesId, c.formData.state, c.formData.country))

/-- The effects of one render, in declaration order: each effect whose
dependencies changed runs against the state of this render, the queued updates
are applied together, and the dependencies are remembered. -/
def round (R : LocationIndex) (c : Comp) : Comp :=
  let a1 := if c.seen1 = some c.formData.country then c else effect1 R c c
  let a2 := if c.seen2 = some c.userId then a1 else effect2 c a1
  let a3 :=
    if c.seen3 = some (c.statesId, c.formData.state, c.formData.country) then a2
    else effect3 R c a2
  { a3 with
    seen1 := some c.formData.country
    seen2 := some c.userId
    seen3 := some (c.statesId, c.formData.state, c.formData.country) }

/-- Renders and effect rounds repeated while an effect is pending, at most
`fuel` times. -/
def settleFuel (R : LocationIndex) : Nat → Comp → Comp
  | 0, c => c
  | fuel + 1, c => if pending c then settleFuel R fuel (round R c) else c

/-- The effects run to completion: three rounds always suffice (`settle_quiet`). -/
def settle (R : LocationIndex) (c : Comp) : Comp := settleFuel R 3 c

/-- The component after mounting with the given `useAuth` value. -/
def mount (R : LocationIndex) (user : Option Profile) : Comp := settle R (initial user)

/-- The auth context delivers a profile record. -/
def setUser (u : Profile) (c : Comp) : Comp :=
  { c with user := some u, userId := c.userId + 1 }

def FormData.set (d : FormData) (name : Field) (value : String) : FormData :=
  match name with
  | .firstName => { d with firstName := value }
  | .lastName => { d with lastName := value }
  | .age => { d with age := .str value }
  | .gender => { d with gender := value }
  | .education_level => { d with education_level := value }
  | .state => { d with state := value }
  | .city => { d with city := value }

/-- Generic handler for most inputs. -/
def handleChange (name : Field) (value : String) (c : Comp) : Comp :=
  { c with formData := c.formData.set name value }

/-- Handler for the country dropdown. -/
def handleCountryChange (countryName : String) (c : Comp) : Comp :=
  { c with
    formData := { c.formData with country := countryName, state := "", city := "" }
    selectedStateCode := ""
    cities := [] }

/-- Handler for the (India-only) state dropdown. -/
def handleStateChange (R : LocationIndex) (stateIsoCode : String) (c : Comp) : Comp :=
  let stateObj := c.states.find? (fun s => s.isoCode == stateIsoCode)
  { c with
    selectedStateCode := stateIsoCode
    cities := R.getCitiesOfState "IN" stateIsoCode
    formData :=
      { c.formData with
        state := match stateObj with
          | some s => s.name
          | none => ""
        city := "" } }

/-- The object `profileData` built by `handleSubmit`. -/
def profileData (d : FormData) : Payload :=
  { firstName := d.firstName
    lastName := d.lastName
    gender := d.gender
    education_level := d.education_level
    country := d.country
    state := d.state
    city := d.city
    name := jsTrim (d.firstName ++ " " ++ d.lastName)
    age := if (jsNumber d.age).truthy then some (jsNumber d.age) else none }

/-- The optional chain `err.response?.data?.message`. -/
def SubmitError.message (err : SubmitError) : Option String :=
  (err.response.bind (fun r => r.data)).bind (fun d => d.message)

/-- The expression `err.response?.data?.message || 'Failed to save details'`. -/
def errorMessage (err : SubmitError) : String :=
  orElse err.message "Failed to save details"

/-- The function `handleSubmit` up to its `await`: the error is cleared, `loading` is
set, the payload is built and `updateProfile` is called. -/
def handleSubmitStart (c : Comp) : Comp :=
  { c with
    error := none
    loading := true
    sent := c.sent ++ [profileData c.formData]
    inFlight := c.inFlight + 1 }

/-- The function `handleSubmit` after its `await`.  The outcome of `updateProfile` is
`ok`, or a rejection with its value: an error object, or `none` for a rejection
with `null` or `undefined`.  On success it navigates; on rejection it stores the
message, except that reading `err.response` from a nullish value throws before
`setError` is reached; `finally` clears `loading` in every case. -/
def handleSubmitFinish (result : Except (Option SubmitError) Unit) (c : Comp) : Comp :=
  match result with
  | .ok _ => { c with navigations := c.navigations + 1, loading := false, inFlight := c.inFlight - 1 }
  | .error (some err) =>
    { c with error := some (errorMessage err), loading := false, inFlight := c.inFlight - 1 }
  | .error none => { c with loading := false, inFlight := c.inFlight - 1 }

/-- One whole run of `handleSubmit` with nothing interleaved. -/
def handleSubmit (result : Except (Option SubmitError) Unit) (c : Comp) : Comp :=
  handleSubmitFinish result (handleSubmitStart c)

/-! ## The rendered form -/

/-- An entry of the list `majorCountries`. -/
structure Country where
  name : String
  isoCode : String
deriving DecidableEq

/-- A list of major countries with their ISO codes. -/
def majorCountries : List Country :=
  [ { name := "Select your country", isoCode := "" },
    { name := "India", isoCode := "IN" },
    { name := "United States", isoCode := "US" },
    { name := "United Kingdom", isoCode := "GB" },
    { name := "Canada", isoCode := "CA" },
    { name := "Australia", isoCode := "AU" },
    { name := "Germany", isoCode := "DE" },
    { name := "France", isoCode := "FR" },
    { name := "Japan", isoCode := "JP" },
    { name := "China", isoCode := "CN" },
    { name := "Brazil", isoCode := "BR" } ]

/-- An `option` element: its value and its `disabled` attribute. -/
structure SelectOption where
  value : String
  disabled : Bool
deriving DecidableEq

/-- A form control as the page renders it, with the attributes that decide
whether the form can be submitted. -/
inductive Control where
  | text (name : String) (required : Bool) (value : String)
  | number (name : String) (required : Bool) (value : JsVal)
  | select (name : String) (required : Bool) (disabled : Bool) (value : String)
      (options : List SelectOption)
deriving DecidableEq

/-- The form of the page: its controls in document order, and the `disabled`
attribute of its one submit button. -/
structure View where
  controls : List Control
  submitDisabled : Bool
deriving DecidableEq

/-- The placeholder option the page puts first in a select: empty value, disabled. -/
def placeholderOption : SelectOption := { value := "", disabled := true }

/-- The form returned by the component for a committed render. -/
def render (c : Comp) : View :=
  { controls :=
      [ .text "firstName" true c.formData.firstName,
        .text "lastName" true c.formData.lastName,
        .number "age" true c.formData.age,
        .select "gender" false false c.formData.gender
          [ { value := "Prefer not to say", disabled := false },
            { value := "Male", disabled := false },
            { value := "Female", disabled := false },
            { value := "Other", disabled := false } ],
        .select "education_level" true false c.formData.education_level
          [ placeholderOption,
            { value := "High School", disabled := false },
            { value := "Some College", disabled := false },
            { value := "Associate\x27s Degree", disabled := false },
            { value := "Bachelor\x27s Degree", disabled := false },
            { value := "Master\x27s Degree", disabled := false },
            { value := "Doctorate (Ph.D.)", disabled := false } ],
        .select "country" true false c.formData.country
          (majorCountries.map fun country =>
            { value := if country.isoCode = "" then "" else country.name,
              disabled := decide (country.isoCode = "") }),
        (if c.formData.country = "India" then
          .select "state" true false c.selectedStateCode
            (placeholderOption ::
              c.states.map fun state => { value := state.isoCode, disabled := false })
        else .text "state" true c.formData.state),
        (if c.formData.country = "India" then
          .select "city" true (decide (c.cities.length = 0)) c.formData.city
            (placeholderOption ::
              c.cities.map fun city => { value := city.name, disabled := false })
        else .text "city" true c.formData.city) ]
    submitDisabled := c.loading }

/-- Index of the first option that satisfies `p`. -/
def firstIndex (p : SelectOption → Bool) : List SelectOption → Option Nat
  | [] => none
  | o :: os => if p o then some 0 else (firstIndex p os).map (· + 1)

/-- The option a controlled select shows for the value React is given: the first
option with that value, and when there is none the first option that is not
disabled. -/
def selectedIndex (options : List SelectOption) (value : String) : Option Nat :=
  match firstIndex (fun o => o.value == value) options with
  | some i => some i
  | none => firstIndex (fun o => !o.disabled) options

/-- A valid floating-point number of HTML: an optional `-`, digits or a point
followed by digits or both, an optional exponent.  A number input holds the
empty string in place of any other text. -/
def isValidFloat (l : List Char) : Bool :=
  let body : List Char :=
    match l with
    | '-' :: r => r
    | _ => l
  let ip := body.takeWhile isDecDigit
  let rest := body.dropWhile isDecDigit
  let mantissa : Bool × List Char :=
    match rest with
    | '.' :: r => (!(r.takeWhile isDecDigit).isEmpty, r.dropWhile isDecDigit)
    | _ => (!ip.isEmpty, rest)
  mantissa.1 &&
    (match mantissa.2 with
      | [] => true
      | e :: r =>
        (e == 'e' || e == 'E') &&
          (match r with
            | '+' :: t => !t.isEmpty && t.all isDecDigit
            | '-' :: t => !t.isEmpty && t.all isDecDigit
            | _ => !r.isEmpty && r.all isDecDigit))

/-- Whether a number input given this value holds a value. -/
def numberInputHasValue : JsVal → Bool
  | .str s => isValidFloat s.data
  | .num (.fin _ _ _) => true
  | .num _ => false

/-- The validity state `valueMissing` of HTML: a required, enabled control holds
no value.  A text input holds none when its value is empty; a select holds none
when no option is selected or the selected one is the placeholder label option,
the first option when its value is empty. -/
def Control.valueMissing : Control → Bool
  | .text _ required value => required && value == ""
  | .number _ required value => required && !numberInputHasValue value
  | .select _ required disabled value options =>
    required && !disabled &&
      (match selectedIndex options value with
        | none => true
        | some i => i == 0 && (options.head?.map fun o => o.value) == some "")

/-- Whether the browser lets the user submit the form: a disabled submit button
cannot be activated and blocks implicit submission as well, and the submit is
held back while a required control holds no value.  Further constraints of the
browser (the step of the number input) are not modelled; they can only hold back
more submits. -/
def View.submitAllowed (v : View) : Bool :=
  !v.submitDisabled && v.controls.all fun control => !control.valueMissing

/-- What can happen to the mounted page: a profile arrives, the user edits the
form, the user submits through the form, a call to `updateProfile` settles. -/
inductive Event where
  | userLoaded (u : Profile)
  | countryChange (countryName : String)
  | stateChange (stateIsoCode : String)
  | change (name : Field) (value : String)
  | submit
  | submitSettled (result : Except (Option SubmitError) Unit)

/-- The handler behind each event.  A submit reaches `handleSubmit`, the `onSubmit`
handler of the form, only when the rendered form can be submitted. -/
def Event.handle (R : LocationIndex) : Event → Comp → Comp
  | .userLoaded u, c => setUser u c
  | .countryChange countryName, c => handleCountryChange countryName c
  | .stateChange stateIsoCode, c => handleStateChange R stateIsoCode c
  | .change name value, c => handleChange name value c
  | .submit, c => if (render c).submitAllowed then handleSubmitStart c else c
  | .submitSettled result, c => if c.inFlight = 0 then c else handleSubmitFinish result c

/-- One event followed by the effects. -/
def step (R : LocationIndex) (c : Comp) (ev : Event) : Comp := settle R (ev.handle R c)

/-- A sequence of events from the left. -/
def run (R : LocationIndex) (evs : List Event) (c : Comp) : Comp := evs.foldl (step R) c

/-- The states the page can be in: mounted with or without a profile, then any events. -/
def Reachable (R : LocationIndex) (c : Comp) : Prop :=
  ∃ (user : Option Profile) (evs : List Event), c = run R evs (mount R user)

/-- The list in `states` is the one Effect 1 stored for the country it saw when
it last ran. -/
def StatesTrack (R : LocationIndex) (c : Comp) : Prop :=
  ∀ k, c.seen1 = some k → c.states = if k = "India" then R.getStatesOfCountry "IN" else []

/-- A settled page on which nothing has been submitted yet, holding draft `d`. -/
def EditingDraft (c : Comp) (d : FormData) : Prop :=
  pending c = false ∧ c.loading = false ∧ c.sent = [] ∧ c.formData = d

/-- The user fills in every required field, choosing Japan and typing the state
and the city. -/
def japanEdits : List Event :=
  [ .change .firstName "Aiko", .change .lastName "Sato", .change .age "29",
    .change .education_level "High School", .countryChange "Japan",
    .change .state "Tokyo", .change .city "Shibuya" ]

/-- A small reference dataset used for concrete runs. -/
def sampleIndex : LocationIndex :=
  { getStatesOfCountry := fun code =>
      if code = "IN" then
        [{ name := "Karnataka", isoCode := "KA" }, { name := "Kerala", isoCode := "KL" }]
      else []
    getCitiesOfState := fun code stateCode =>
      if code = "IN" ∧ stateCode = "KA" then [{ name := "Bengaluru" }, { name := "Mysuru" }]
      else if code = "IN" ∧ stateCode = "KL" then [{ name := "Kochi" }]
      else [] }

/-- A profile record with every field missing. -/
def emptyProfile : Profile :=
  { firstName := none, lastName := none, name := none, age := none, gender := none,
    education_level := none, country := none, state := none, city := none }

/-- A stored profile for India. -/
def indiaProfile : Profile :=
  { emptyProfile with
    country := some "India", state := some "Karnataka", city := some "Mysuru" }

/-- A stored profile for Japan. -/
def japanProfile : Profile :=
  { emptyProfile with country := some "Japan" }

/-- A stored profile that has a `name` but neither `firstName` nor `lastName`,
the age zero and an empty gender. -/
def adaProfile : Profile :=
  { emptyProfile with
    name := some "Ada Lovelace", age := some (.num (.fin false 0 0)), gender := some "" }

/-- A stored profile whose `name` has spaces at both ends and two in the middle. -/
def spacedProfile : Profile :=
  { emptyProfile with name := some " Ada  Lovelace " }

/-! ## One round of effects, field by field -/

theorem effect1_frame (R : LocationIndex) (s a : Comp) :
    (effect1 R s a).user = a.user ∧ (effect1 R s a).userId = a.userId ∧
    (effect1 R s a).loading = a.loading ∧ (effect1 R s a).error = a.error ∧
    (effect1 R s a).sent = a.sent ∧ (effect1 R s a).inFlight = a.inFlight ∧
    (effect1 R s a).navigations = a.navigations ∧ (effect1 R s a).formData = a.formData ∧
    (effect1 R s a).selectedStateCode = a.selectedStateCode ∧
    (effect1 R s a).cities = a.cities := by
  unfold effect1
  split_ifs <;> exact ⟨rfl, rfl, rfl, rfl, rfl, rfl, rfl, rfl, rfl, rfl⟩

theorem effect2_frame (s a : Comp) :
    (effect2 s a).user = a.user ∧ (effect2 s a).userId = a.userId ∧
    (effect2 s a).loading = a.loading ∧ (effect2 s a).error = a.error ∧
    (effect2 s a).sent = a.sent ∧ (effect2 s a).inFlight = a.inFlight ∧
    (effect2 s a).navigations = a.navigations ∧ (effect2 s a).states = a.states ∧
    (effect2 s a).statesId = a.statesId ∧
    (effect2 s a).selectedStateCode = a.selectedStateCode ∧
    (effect2 s a).cities = a.cities := by
  unfold effect2
  cases s.user <;> exact ⟨rfl, rfl, rfl, rfl, rfl, rfl, rfl, rfl, rfl, rfl, rfl⟩

theorem effect3_frame (R : LocationIndex) (s a : Comp) :
    (effect3 R s a).user = a.user ∧ (effect3 R s a).userId = a.userId ∧
    (effect3 R s a).loading = a.loading ∧ (effect3 R s a).error = a.error ∧
    (effect3 R s a).sent = a.sent ∧ (effect3 R s a).inFlight = a.inFlight ∧
    (effect3 R s a).navigations = a.navigations ∧ (effect3 R s a).states = a.states ∧
    (effect3 R s a).statesId = a.statesId ∧ (effect3 R s a).formData = a.formData := by
  unfold effect3
  split_ifs
  · cases s.states.find? (fun x => x.name == s.formData.state) <;>
      exact ⟨rfl, rfl, rfl, rfl, rfl, rfl, rfl, rfl, rfl, rfl⟩
  · exact ⟨rfl, rfl, rfl, rfl, rfl, rfl, rfl, rfl, rfl, rfl⟩

theorem effect1_states (R : LocationIndex) (s a : Comp) :
    (effect1 R s a).states =
      (if s.formData.country = "India" then R.getStatesOfCountry "IN" else []) ∧
    (effect1 R s a).statesId = a.statesId + 1 := by
  unfold effect1
  split_ifs <;> exact ⟨rfl, rfl⟩

theorem effect2_formData (s a : Comp) :
    (effect2 s a).formData =
      match s.user with
      | some u => prefill u a.formData
      | none => a.formData := by
  unfold effect2
  cases s.user <;> rfl

theorem effect3_selectedStateCode (R : LocationIndex) (snap acc : Comp) :
    (effect3 R snap acc).selectedStateCode =
      if snap.formData.country = "India" ∧ snap.states.length > 0 ∧ snap.formData.state ≠ "" then
        match snap.states.find? (fun s => s.name == snap.formData.state) with
        | some userState => userState.isoCode
        | none => acc.selectedStateCode
      else acc.selectedStateCode := by
  simp only [effect3]
  split_ifs
  · cases snap.states.find? (fun s => s.name == snap.formData.state) <;> rfl
  · rfl

theorem effect3_cities (R : LocationIndex) (snap acc : Comp) :
    (effect3 R snap acc).cities =
      if snap.formData.country = "India" ∧ snap.states.length > 0 ∧ snap.formData.state ≠ "" then
        match snap.states.find? (fun s => s.name == snap.formData.state) with
        | some userState => R.getCitiesOfState "IN" userState.isoCode
        | none => acc.cities
      else acc.cities := by
  simp only [effect3]
  split_ifs
  · cases snap.states.find? (fun s => s.name == snap.formData.state) <;> rfl
  · rfl

theorem round_user (R : LocationIndex) (c : Comp) : (round R c).user = c.user := by
  simp only [round]
  split_ifs <;>
    simp only [(effect1_frame _ _ _).1, (effect2_frame _ _).1, (effect3_frame _ _ _).1]

theorem round_userId (R : LocationIndex) (c : Comp) : (round R c).userId = c.userId := by
  simp only [round]
  split_ifs <;>
    simp only [(effect1_frame _ _ _).2.1, (effect2_frame _ _).2.1, (effect3_frame _ _ _).2.1]

theorem round_loading (R : LocationIndex) (c : Comp) : (round R c).loading = c.loading := by
  simp only [round]
  split_ifs <;>
    simp only [(effect1_frame _ _ _).2.2.1, (effect2_frame _ _).2.2.1,
      (effect3_frame _ _ _).2.2.1]

theorem round_error (R : LocationIndex) (c : Comp) : (round R c).error = c.error := by
  simp only [round]
  split_ifs <;>
    simp only [(effect1_frame _ _ _).2.2.2.1, (effect2_frame _ _).2.2.2.1,
      (effect3_frame _ _ _).2.2.2.1]

theorem round_sent (R : LocationIndex) (c : Comp) : (round R c).sent = c.sent := by
  simp only [round]
  split_ifs <;>
    simp only [(effect1_frame _ _ _).2.2.2.2.1, (effect2_frame _ _).2.2.2.2.1,
      (effect3_frame _ _ _).2.2.2.2.1]

theorem round_inFlight (R : LocationIndex) (c : Comp) : (round R c).inFlight = c.inFlight := by
  simp only [round]
  split_ifs <;>
    simp only [(effect1_frame _ _ _).2.2.2.2.2.1, (effect2_frame _ _).2.2.2.2.2.1,
      (effect3_frame _ _ _).2.2.2.2.2.1]

theorem round_navigations (R : LocationIndex) (c : Comp) :
    (round R c).navigations = c.navigations := by
  simp only [round]
  split_ifs <;>
    simp only [(effect1_frame _ _ _).2.2.2.2.2.2.1, (effect2_frame _ _).2.2.2.2.2.2.1,
      (effect3_frame _ _ _).2.2.2.2.2.2.1]

theorem round_seen1 (R : LocationIndex) (c : Comp) :
    (round R c).seen1 = some c.formData.country := rfl

theorem round_seen2 (R : LocationIndex) (c : Comp) : (round R c).seen2 = some c.userId := rfl

theorem round_seen3 (R : LocationIndex) (c : Comp) :
    (round R c).seen3 = some (c.statesId, c.formData.state, c.formData.country) := rfl

theorem round_formData (R : LocationIndex) (c : Comp) :
    (round R c).formData =
      if c.seen2 = some c.userId then c.formData
      else match c.user with
        | some u => prefill u c.formData
        | none => c.formData := by
  simp only [round]
  split_ifs <;>
    simp only [(effect1_frame _ _ _).2.2.2.2.2.2.2.1, effect2_formData,
      (effect3_frame _ _ _).2.2.2.2.2.2.2.2.2]

theorem round_states (R : LocationIndex) (c : Comp) :
    (round R c).states =
      if c.seen1 = some c.formData.country then c.states
      else if c.formData.country = "India" then R.getStatesOfCountry "IN" else [] := by
  simp only [round]
  split_ifs <;>
    simp only [(effect1_states _ _ _).1, (effect2_frame _ _).2.2.2.2.2.2.2.1,
      (effect3_frame _ _ _).2.2.2.2.2.2.2.1, if_true, if_false, *]

theorem round_statesId (R : LocationIndex) (c : Comp) :
    (round R c).statesId =
      if c.seen1 = some c.formData.country then c.statesId else c.statesId + 1 := by
  simp only [round]
  split_ifs <;>
    simp only [(effect1_states _ _ _).2, (effect2_frame _ _).2.2.2.2.2.2.2.2.1,
      (effect3_frame _ _ _).2.2.2.2.2.2.2.2.1]

theorem round_selectedStateCode (R : LocationIndex) (c : Comp) :
    (round R c).selectedStateCode =
      if c.seen3 = some (c.statesId, c.formData.state, c.formData.country) then c.selectedStateCode
      else (effect3 R c c).selectedStateCode := by
  simp only [round]
  split_ifs <;>
    simp only [effect3_selectedStateCode, (effect1_frame _ _ _).2.2.2.2.2.2.2.2.1,
      (effect2_frame _ _).2.2.2.2.2.2.2.2.2.1]

theorem round_cities (R : LocationIndex) (c : Comp) :
    (round R c).cities =
      if c.seen3 = some (c.statesId, c.formData.state, c.formData.country) then c.cities
      else (effect3 R c c).cities := by
  simp only [round]
  split_ifs <;>
    simp only [effect3_cities, (effect1_frame _ _ _).2.2.2.2.2.2.2.2.2,
      (effect2_frame _ _).2.2.2.2.2.2.2.2.2.2]

/-- Three rounds after any state, no effect has a changed dependency. -/
theorem pending_round3 (R : LocationIndex) (c : Comp) :
    pending (round R (round R (round R c))) = false := by
  simp [pending, round_seen1, round_seen2, round_seen3, round_formData, round_userId,
    round_statesId]

/-- The effect rounds always come to rest: after `settle` no effect is pending. -/
theorem settle_quiet (R : LocationIndex) (c : Comp) : pending (settle R c) = false := by
  simp only [settle, settleFuel]
  split_ifs with h1 h2 h3
  · exact pending_round3 R c
  · simpa using h3
  · simpa using h2
  · simpa using h1

/-! ## Settling -/

theorem settleFuel_frame (R : LocationIndex) (n : Nat) (c : Comp) :
    (settleFuel R n c).user = c.user ∧ (settleFuel R n c).userId = c.userId ∧
    (settleFuel R n c).loading = c.loading ∧ (settleFuel R n c).error = c.error ∧
    (settleFuel R n c).sent = c.sent ∧ (settleFuel R n c).inFlight = c.inFlight ∧
    (settleFuel R n c).navigations = c.navigations := by
  induction n generalizing c with
  | zero => simp [settleFuel]
  | succ n ih =>
    simp only [settleFuel]
    split_ifs
    · have h := ih (round R c)
      simpa [round_user, round_userId, round_loading, round_error, round_sent, round_inFlight,
        round_navigations] using h
    · simp

theorem settle_of_quiet (R : LocationIndex) (c : Comp) (h : pending c = false) :
    settle R c = c := by
  simp [settle, settleFuel, h]

/-- With no profile delivery outstanding, the effects leave the draft alone. -/
theorem settleFuel_formData (R : LocationIndex) (n : Nat) (c : Comp)
    (h : c.seen2 = some c.userId) :
    (settleFuel R n c).formData = c.formData ∧
    (settleFuel R n c).seen2 = some (settleFuel R n c).userId := by
  induction n generalizing c with
  | zero => simp [settleFuel, h]
  | succ n ih =>
    simp only [settleFuel]
    split_ifs
    · have h2 : (round R c).seen2 = some (round R c).userId := by
        simp [round_seen2, round_userId]
      have hf : (round R c).formData = c.formData := by simp [round_formData, h]
      have := ih (round R c) h2
      rw [hf] at this
      exact this
    · exact ⟨rfl, h⟩

/-- With no profile delivery outstanding and an empty state name, Effect 3 does
nothing: the selected code and the city list stay. -/
theorem settleFuel_selection (R : LocationIndex) (n : Nat) (c : Comp)
    (h : c.seen2 = some c.userId) (hs : c.formData.state = "") :
    (settleFuel R n c).selectedStateCode = c.selectedStateCode ∧
    (settleFuel R n c).cities = c.cities := by
  induction n generalizing c with
  | zero => simp [settleFuel]
  | succ n ih =>
    simp only [settleFuel]
    split_ifs
    · have h2 : (round R c).seen2 = some (round R c).userId := by
        simp [round_seen2, round_userId]
      have hf : (round R c).formData = c.formData := by simp [round_formData, h]
      have hs2 : (round R c).formData.state = "" := by rw [hf]; exact hs
      have := ih (round R c) h2 hs2
      rw [this.1, this.2]
      simp [round_selectedStateCode, round_cities, effect3, hs]
    · simp

/-- The list in `states` is what Effect 1 stored for the country it last saw. -/
theorem round_tracks (R : LocationIndex) (c : Comp) (h : StatesTrack R c) :
    StatesTrack R (round R c) := by
  intro k hk
  rw [round_seen1] at hk
  cases hk
  rw [round_states]
  split_ifs with h1 h2 h2
  · simpa [h2] using h _ h1
  · simpa [h2] using h _ h1
  · rfl
  · rfl

theorem settleFuel_tracks (R : LocationIndex) (n : Nat) (c : Comp) (h : StatesTrack R c) :
    StatesTrack R (settleFuel R n c) := by
  induction n generalizing c with
  | zero => simpa [settleFuel] using h
  | succ n ih =>
    simp only [settleFuel]
    split_ifs
    · exact ih _ (round_tracks R c h)
    · exact h

theorem handle_tracks (R : LocationIndex) (ev : Event) (c : Comp) (h : StatesTrack R c) :
    StatesTrack R (ev.handle R c) := by
  cases ev with
  | userLoaded u => exact h
  | countryChange x => exact h
  | stateChange x => exact h
  | change name value => exact h
  | submit =>
    simp only [Event.handle]
    split_ifs
    · exact h
    · exact h
  | submitSettled result =>
    simp only [Event.handle]
    split_ifs
    · exact h
    · rcases result with (_ | _) | _ <;> exact h

theorem reachable_tracks (R : LocationIndex) (c : Comp) (h : Reachable R c) :
    StatesTrack R c := by
  obtain ⟨user, evs, rfl⟩ := h
  induction evs using List.reverseRecOn with
  | nil =>
    simp only [run, List.foldl_nil, mount]
    apply settleFuel_tracks
    intro k hk
    simp [initial] at hk
  | append_singleton evs ev ih =>
    simp only [run, List.foldl_append, List.foldl_cons, List.foldl_nil, step] at ih ⊢
    exact settleFuel_tracks R 3 _ (handle_tracks R ev _ ih)

theorem reachable_quiet (R : LocationIndex) (c : Comp) (h : Reachable R c) :
    pending c = false := by
  obtain ⟨user, evs, rfl⟩ := h
  induction evs using List.reverseRecOn with
  | nil => exact settle_quiet R (initial user)
  | append_singleton evs ev _ =>
    simp only [run, List.foldl_append, List.foldl_cons, List.foldl_nil, step]
    exact settle_quiet R _

theorem quiet_iff (c : Comp) :
    pending c = false ↔
      c.seen1 = some c.formData.country ∧ c.seen2 = some c.userId ∧
      c.seen3 = some (c.statesId, c.formData.state, c.formData.country) := by
  simp [pending, and_assoc]

theorem step_sent (R : LocationIndex) (c : Comp) (ev : Event) :
    (step R c ev).sent = (ev.handle R c).sent ∧
    (step R c ev).loading = (ev.handle R c).loading := by
  obtain ⟨_, _, h3, _, h5, _, _⟩ := settleFuel_frame R 3 (ev.handle R c)
  exact ⟨h5, h3⟩

/-- After an event other than the arrival of a profile, the effects leave the
draft as the handler wrote it. -/
theorem step_formData (R : LocationIndex) (c : Comp) (ev : Event) (hq : pending c = false)
    (hev : ∀ u, ev ≠ .userLoaded u) :
    (step R c ev).formData = (ev.handle R c).formData := by
  have h2 := ((quiet_iff c).1 hq).2.1
  have hs : (ev.handle R c).seen2 = some (ev.handle R c).userId := by
    cases ev with
    | userLoaded u => exact absurd rfl (hev u)
    | countryChange x => exact h2
    | stateChange x => exact h2
    | change name value => exact h2
    | submit =>
      simp only [Event.handle]
      split_ifs <;> exact h2
    | submitSettled result =>
      simp only [Event.handle]
      split_ifs
      · exact h2
      · rcases result with (_ | _) | _ <;> exact h2
  exact (settleFuel_formData R 3 _ hs).1

/-! ## Country and state handlers -/

/-- C1: in every state the page can be in, `handleCountryChange` followed by the
effects leaves the draft with the chosen country, an empty state and an empty
city, clears `selectedStateCode` and `cities`, and for a country other than
India leaves `states` empty as well. -/
theorem handleCountryChange_resets (R : LocationIndex) (c : Comp) (h : Reachable R c)
    (countryName : String) :
    (step R c (.countryChange countryName)).formData.country = countryName ∧
    (step R c (.countryChange countryName)).formData.state = "" ∧
    (step R c (.countryChange countryName)).formData.city = "" ∧
    (step R c (.countryChange countryName)).selectedStateCode = "" ∧
    (step R c (.countryChange countryName)).cities = [] ∧
    (countryName ≠ "India" → (step R c (.countryChange countryName)).states = []) := by
  have hq := (quiet_iff c).1 (reachable_quiet R c h)
  have hx2 : (handleCountryChange countryName c).seen2 =
      some (handleCountryChange countryName c).userId := hq.2.1
  have hf := (settleFuel_formData R 3 _ hx2).1
  have hsel := settleFuel_selection R 3 _ hx2 rfl
  have ht : StatesTrack R (step R c (.countryChange countryName)) :=
    settleFuel_tracks R 3 _ (handle_tracks R (.countryChange countryName) c
      (reachable_tracks R c h))
  have hq2 := (quiet_iff _).1 (settle_quiet R (handleCountryChange countryName c))
  simp only [step, Event.handle, settle] at ht hq2 ⊢
  refine ⟨by rw [hf]; rfl, by rw [hf]; rfl, by rw [hf]; rfl, by rw [hsel.1]; rfl,
    by rw [hsel.2]; rfl, ?_⟩
  intro hne
  have := ht _ hq2.1
  rw [hf] at this
  simpa [handleCountryChange, hne] using this

theorem handleCountryChange_resets_witness :
    Reachable sampleIndex (run sampleIndex [.countryChange "India", .stateChange "KA"]
      (mount sampleIndex none)) ∧
    (step sampleIndex (run sampleIndex [.countryChange "India", .stateChange "KA"]
      (mount sampleIndex none)) (.countryChange "Japan")).states = [] :=
  ⟨⟨none, _, rfl⟩,
    (handleCountryChange_resets sampleIndex _ ⟨none, _, rfl⟩ "Japan").2.2.2.2.2 (by decide)⟩

/-- C3: `handleStateChange` stores the chosen code in `selectedStateCode`, writes
to the draft the name of the entry of `states` found under that code (the empty
string when no entry carries the code), empties the city, loads the city list of
the code, and leaves the other draft fields as they were.  On a page reached
through its events the effects that follow leave that draft untouched. -/
theorem handleStateChange_sets (R : LocationIndex) (c : Comp) (stateIsoCode : String) :
    (handleStateChange R stateIsoCode c).selectedStateCode = stateIsoCode ∧
    (∀ e, c.states.find? (fun s => s.isoCode == stateIsoCode) = some e →
      e ∈ c.states ∧ e.isoCode = stateIsoCode ∧
      (handleStateChange R stateIsoCode c).formData.state = e.name) ∧
    ((∃ e ∈ c.states, e.isoCode = stateIsoCode) →
      ∃ e ∈ c.states, e.isoCode = stateIsoCode ∧
        (handleStateChange R stateIsoCode c).formData.state = e.name) ∧
    ((∀ e ∈ c.states, e.isoCode ≠ stateIsoCode) →
      (handleStateChange R stateIsoCode c).formData.state = "") ∧
    (handleStateChange R stateIsoCode c).formData.city = "" ∧
    (handleStateChange R stateIsoCode c).cities = R.getCitiesOfState "IN" stateIsoCode ∧
    (handleStateChange R stateIsoCode c).formData.firstName = c.formData.firstName ∧
    (handleStateChange R stateIsoCode c).formData.lastName = c.formData.lastName ∧
    (handleStateChange R stateIsoCode c).formData.age = c.formData.age ∧
    (handleStateChange R stateIsoCode c).formData.gender = c.formData.gender ∧
    (handleStateChange R stateIsoCode c).formData.education_level =
      c.formData.education_level ∧
    (handleStateChange R stateIsoCode c).formData.country = c.formData.country ∧
    (Reachable R c → (step R c (.stateChange stateIsoCode)).formData =
      (handleStateChange R stateIsoCode c).formData) := by
  have hfound : ∀ e, c.states.find? (fun s => s.isoCode == stateIsoCode) = some e →
      e ∈ c.states ∧ e.isoCode = stateIsoCode ∧
      (handleStateChange R stateIsoCode c).formData.state = e.name := by
    intro e he
    refine ⟨List.mem_of_find?_eq_some he, ?_, ?_⟩
    · simpa using List.find?_some he
    · simp [handleStateChange, he]
  refine ⟨rfl, hfound, ?_, ?_, rfl, rfl, rfl, rfl, rfl, rfl, rfl, rfl, ?_⟩
  · rintro ⟨e, he, hk⟩
    cases hfind : c.states.find? (fun s => s.isoCode == stateIsoCode) with
    | none =>
      rw [List.find?_eq_none] at hfind
      exact absurd (by simpa using hk) (hfind e he)
    | some e2 =>
      obtain ⟨h1, h2, h3⟩ := hfound e2 hfind
      exact ⟨e2, h1, h2, h3⟩
  · intro hnone
    have hfind : c.states.find? (fun s => s.isoCode == stateIsoCode) = none := by
      rw [List.find?_eq_none]
      intro x hx
      simpa using hnone x hx
    simp [handleStateChange, hfind]
  · intro hr
    exact step_formData R c (.stateChange stateIsoCode) (reachable_quiet R c hr) (by simp)

/-! ## Loading a profile -/

theorem prefill_country (u : Profile) (d : FormData) :
    (prefill u d).country = orElse u.country "" := rfl

theorem prefill_state (u : Profile) (d : FormData) :
    (prefill u d).state = orElse u.state "" := rfl

theorem prefill_city (u : Profile) (d : FormData) :
    (prefill u d).city = orElse u.city "" := rfl

theorem mount_none_fields (R : LocationIndex) :
    (mount R none).formData = (initial none).formData ∧ (mount R none).states = [] ∧
    (mount R none).selectedStateCode = "" ∧ (mount R none).cities = [] ∧
    (mount R none).error = none ∧ (mount R none).seen2 = some 0 ∧
    (mount R none).userId = 0 :=
  ⟨rfl, rfl, rfl, rfl, rfl, rfl, rfl⟩

theorem find_pos {α : Type} (p : α → Bool) (l : List α) (e : α) (h : l.find? p = some e) :
    0 < l.length := by
  cases l with
  | nil => simp at h
  | cons a t => simp

/-- A profile for India with a state name, delivered to a page whose selection is
still empty: the draft is pre-filled, then the states load, then Effect 3 looks
the name up. -/
theorem preselect_core (R : LocationIndex) (u : Profile) (s : String)
    (hc : u.country = some "India") (hs : u.state = some s) (hne : s ≠ "")
    (c0 : Comp) (hu : c0.user = some u) (h2 : c0.seen2 ≠ some c0.userId)
    (hcountry : c0.formData.country = "") (hstates : c0.states = [])
    (hsel : c0.selectedStateCode = "") (hcit : c0.cities = []) (herr : c0.error = none) :
    (settle R c0).formData = prefill u (initial none).formData ∧
    (settle R c0).error = none ∧
    (∀ e, (R.getStatesOfCountry "IN").find? (fun x => x.name == s) = some e →
      (settle R c0).selectedStateCode = e.isoCode ∧
      (settle R c0).cities = R.getCitiesOfState "IN" e.isoCode) ∧
    ((R.getStatesOfCountry "IN").find? (fun x => x.name == s) = none →
      (settle R c0).selectedStateCode = "" ∧ (settle R c0).cities = []) := by
  have p0 : pending c0 = true := by simp [pending, h2]
  have f1 : (round R c0).formData = prefill u (initial none).formData := by
    rw [round_formData, if_neg h2, hu]
    rfl
  have s1 : (round R c0).states = [] := by
    rw [round_states, hcountry]
    simp [hstates]
  have c1 : (round R c0).selectedStateCode = "" := by
    rw [round_selectedStateCode, effect3_selectedStateCode, hcountry]
    simp [hsel]
  have t1 : (round R c0).cities = [] := by
    rw [round_cities, effect3_cities, hcountry]
    simp [hcit]
  have p1 : pending (round R c0) = true := by
    simp [pending, round_seen1, f1, hcountry, prefill_country, hc, orElse]
  have f2 : (round R (round R c0)).formData = prefill u (initial none).formData := by
    rw [round_formData, round_seen2, round_userId, if_pos rfl, f1]
  have s2 : (round R (round R c0)).states = R.getStatesOfCountry "IN" := by
    rw [round_states, round_seen1, f1, hcountry]
    simp [prefill_country, hc, orElse]
  have c2 : (round R (round R c0)).selectedStateCode = "" := by
    rw [round_selectedStateCode, effect3_selectedStateCode, s1]
    simp [c1]
  have t2 : (round R (round R c0)).cities = [] := by
    rw [round_cities, effect3_cities, s1]
    simp [t1]
  have p2 : pending (round R (round R c0)) = true := by
    simp [pending, round_seen1, round_seen3, round_statesId, f1, f2, hcountry, prefill_country,
      hc, orElse]
  have q3 : (round R (round R c0)).seen3 ≠
      some ((round R (round R c0)).statesId, (round R (round R c0)).formData.state,
        (round R (round R c0)).formData.country) := by
    simp [round_seen3, round_statesId, round_seen1, f1, f2, hcountry, prefill_country, hc,
      orElse]
  simp only [settle, settleFuel, p0, p1, p2, if_true]
  refine ⟨?_, ?_, ?_, ?_⟩
  · rw [round_formData, round_seen2, round_userId, round_userId, round_userId, if_pos rfl, f2]
  · rw [round_error, round_error, round_error, herr]
  · intro e he
    have hpos := find_pos _ _ _ he
    rw [round_selectedStateCode, round_cities, if_neg q3, if_neg q3,
      effect3_selectedStateCode, effect3_cities, s2, f2]
    simp [prefill_country, prefill_state, hc, hs, orElse, hne, he, hpos]
  · intro he
    rw [round_selectedStateCode, round_cities, if_neg q3, if_neg q3,
      effect3_selectedStateCode, effect3_cities, s2, f2]
    simp [prefill_country, prefill_state, hc, hs, orElse, hne, he, c2, t2]

/-- C2: a profile for India with a non-empty state name arrives at a fresh page,
either with the mount or afterwards.  Once the effects have settled: if the India
list has an entry with exactly that name, `selectedStateCode` is the `isoCode` of
that entry (the first one so named, which is the only one when names are not
repeated) and `cities` is the city list of that code; if no entry has the name,
`selectedStateCode` and `cities` stay empty; either way the draft keeps the
loaded city and no error is set. -/
theorem profile_preselects (R : LocationIndex) (u : Profile) (s : String)
    (hc : u.country = some "India") (hs : u.state = some s) (hne : s ≠ "") (c : Comp)
    (hstart : c = mount R (some u) ∨ c = step R (mount R none) (.userLoaded u)) :
    ((∃ e ∈ R.getStatesOfCountry "IN", e.name = s) →
      ∃ e ∈ R.getStatesOfCountry "IN", e.name = s ∧
        (R.getStatesOfCountry "IN").find? (fun x => x.name == s) = some e ∧
        c.selectedStateCode = e.isoCode ∧ c.cities = R.getCitiesOfState "IN" e.isoCode) ∧
    (∀ e ∈ R.getStatesOfCountry "IN", e.name = s →
      (∀ e2 ∈ R.getStatesOfCountry "IN", e2.name = s → e2.isoCode = e.isoCode) →
      c.selectedStateCode = e.isoCode ∧ c.cities = R.getCitiesOfState "IN" e.isoCode) ∧
    ((∀ e ∈ R.getStatesOfCountry "IN", e.name ≠ s) →
      c.selectedStateCode = "" ∧ c.cities = []) ∧
    (∀ city, u.city = some city → c.formData.city = city) ∧
    c.formData.country = "India" ∧ c.formData.state = s ∧ c.error = none := by
  have key : c.formData = prefill u (initial none).formData ∧ c.error = none ∧
      (∀ e, (R.getStatesOfCountry "IN").find? (fun x => x.name == s) = some e →
        c.selectedStateCode = e.isoCode ∧ c.cities = R.getCitiesOfState "IN" e.isoCode) ∧
      ((R.getStatesOfCountry "IN").find? (fun x => x.name == s) = none →
        c.selectedStateCode = "" ∧ c.cities = []) := by
    rcases hstart with h | h
    · rw [h]
      exact preselect_core R u s hc hs hne (initial (some u)) rfl (by simp [initial]) rfl rfl
        rfl rfl rfl
    · rw [h]
      obtain ⟨m1, m2, m3, m4, m5, m6, m7⟩ := mount_none_fields R
      have := preselect_core R u s hc hs hne (setUser u (mount R none)) rfl
        (by simp [setUser, m6, m7]) (by simp [setUser, m1, initial]) m2 m3 m4 m5
      exact this
  obtain ⟨kf, kerr, ksome, knone⟩ := key
  have found : (∃ e ∈ R.getStatesOfCountry "IN", e.name = s) →
      ∃ e ∈ R.getStatesOfCountry "IN", e.name = s ∧
        (R.getStatesOfCountry "IN").find? (fun x => x.name == s) = some e ∧
        c.selectedStateCode = e.isoCode ∧ c.cities = R.getCitiesOfState "IN" e.isoCode := by
    rintro ⟨e, he, hname⟩
    cases hfind : (R.getStatesOfCountry "IN").find? (fun x => x.name == s) with
    | none =>
      rw [List.find?_eq_none] at hfind
      exact absurd (by simpa using hname) (hfind e he)
    | some e2 =>
      refine ⟨e2, List.mem_of_find?_eq_some hfind, ?_, rfl, ksome e2 hfind⟩
      simpa using List.find?_some hfind
  refine ⟨found, ?_, ?_, ?_, ?_, ?_, kerr⟩
  · intro e he hname huniq
    obtain ⟨e2, he2, hname2, _, hsel, hcit⟩ := found ⟨e, he, hname⟩
    rw [hsel, hcit, huniq e2 he2 hname2]
    exact ⟨rfl, rfl⟩
  · intro hnone
    apply knone
    rw [List.find?_eq_none]
    intro x hx
    simpa using hnone x hx
  · intro city hcity
    rw [kf, prefill_city, hcity]
    simp only [orElse]
    split_ifs with h0
    · exact h0.symm
    · rfl
  · rw [kf, prefill_country, hc]
    rfl
  · rw [kf, prefill_state, hs]
    simp [orElse, hne]

theorem profile_preselects_witness :
    (mount sampleIndex (some indiaProfile)).selectedStateCode = "KA" ∧
    (mount sampleIndex (some indiaProfile)).cities =
      sampleIndex.getCitiesOfState "IN" "KA" ∧
    (mount sampleIndex (some indiaProfile)).formData.city = "Mysuru" :=
  have h := profile_preselects sampleIndex indiaProfile "Karnataka" rfl rfl (by decide)
    (mount sampleIndex (some indiaProfile)) (Or.inl rfl)
  have h2 := h.2.1 { name := "Karnataka", isoCode := "KA" } (by decide) rfl (by decide)
  ⟨h2.1, h2.2, h.2.2.2.1 "Mysuru" rfl⟩

/-! ## Strings: split, join and trim -/

theorem splitSpaceChars_ne_nil (l : List Char) : splitSpaceChars l ≠ [] := by
  cases l with
  | nil => simp [splitSpaceChars]
  | cons c cs =>
    simp only [splitSpaceChars]
    split_ifs
    · simp
    · cases splitSpaceChars cs <;> simp

theorem splitSpaceChars_head (l : List Char) :
    (splitSpaceChars l).headD [] = l.takeWhile (fun c => c != ' ') := by
  induction l with
  | nil => rfl
  | cons c cs ih =>
    simp only [splitSpaceChars]
    split_ifs with h
    · simp [h]
    · cases hs : splitSpaceChars cs with
      | nil => exact absurd hs (splitSpaceChars_ne_nil cs)
      | cons p ps =>
        rw [hs] at ih
        simp only [List.headD_cons] at ih
        simp [List.takeWhile_cons, h, ih]

theorem jsJoinSpace_cons_char (c : Char) (p : List Char) (ps : List String) :
    (jsJoinSpace (String.mk (c :: p) :: ps)).data = c :: (jsJoinSpace (String.mk p :: ps)).data := by
  cases ps with
  | nil => rfl
  | cons q qs => simp [jsJoinSpace, String.data_append]

/-- Joining the pieces of a split gives the text back. -/
theorem join_split (l : List Char) :
    (jsJoinSpace ((splitSpaceChars l).map String.mk)).data = l := by
  induction l with
  | nil => rfl
  | cons c cs ih =>
    simp only [splitSpaceChars]
    cases hs : splitSpaceChars cs with
    | nil => exact absurd hs (splitSpaceChars_ne_nil cs)
    | cons p ps =>
      rw [hs] at ih
      split_ifs with h
      · simp only [List.map_cons, jsJoinSpace, String.data_append] at ih ⊢
        rw [ih, h]
        rfl
      · simp only [List.map_cons] at ih ⊢
        rw [jsJoinSpace_cons_char, ih]

theorem join_split_tail (l : List Char) :
    (jsJoinSpace (((splitSpaceChars l).map String.mk).drop 1)).data =
      (l.dropWhile (fun c => c != ' ')).drop 1 := by
  induction l with
  | nil => rfl
  | cons c cs ih =>
    simp only [splitSpaceChars]
    split_ifs with h
    · simp [h, join_split]
    · cases hs : splitSpaceChars cs with
      | nil => exact absurd hs (splitSpaceChars_ne_nil cs)
      | cons p ps =>
        rw [hs] at ih
        simp only [List.map_cons, List.drop_succ_cons, List.drop_zero] at ih ⊢
        rw [ih]
        simp [List.dropWhile_cons, h]

theorem dropWhile_snoc (p : Char → Bool) (l : List Char) (a : Char) (ha : p a = true) :
    (l ++ [a]).dropWhile p = if l.all p then [] else l.dropWhile p ++ [a] := by
  induction l with
  | nil => simp [List.dropWhile_cons, ha]
  | cons c cs ih =>
    by_cases hc : p c = true
    · simp [List.dropWhile_cons, hc, ih]
    · simp [List.dropWhile_cons, hc]

theorem dropWhile_all (p : Char → Bool) (l : List Char) (h : l.all p = true) :
    l.dropWhile p = [] := by
  induction l with
  | nil => rfl
  | cons c cs ih =>
    simp only [List.all_cons, Bool.and_eq_true] at h
    simp [List.dropWhile_cons, h.1, ih h.2]

/-- A space appended to a text is trimmed away again. -/
theorem trimChars_snoc_space (l : List Char) : trimChars (l ++ [' ']) = trimChars l := by
  have hsp : isJsWhiteSpace ' ' = true := by decide
  unfold trimChars
  rw [dropWhile_snoc _ _ _ hsp]
  split_ifs with h
  · rw [dropWhile_all _ _ h]
  · simp [List.dropWhile_cons, hsp]

/-- The first piece, a space, and the other pieces joined: trimmed, that is the
trimmed text. -/
theorem trim_head_space_tail (l : List Char) :
    trimChars (l.takeWhile (fun c => c != ' ') ++ [' '] ++
      (l.dropWhile (fun c => c != ' ')).drop 1) = trimChars l := by
  cases hd : l.dropWhile (fun c => c != ' ') with
  | nil =>
    have : l.takeWhile (fun c => c != ' ') = l := by
      have := List.takeWhile_append_dropWhile (fun c => c != ' ') l
      rw [hd, List.append_nil] at this
      exact this
    rw [this]
    simpa using trimChars_snoc_space l
  | cons a rest =>
    have ha : a = ' ' := by
      have := List.head_dropWhile_not (fun c => c != ' ') l (by rw [hd]; simp)
      simpa [hd] using this
    have := List.takeWhile_append_dropWhile (fun c => c != ' ') l
    rw [hd, ha] at this
    simp only [List.drop_succ_cons, List.drop_zero, List.append_assoc, List.singleton_append]
    rw [this]

/-! ## The profile-load step and the name round trip -/

theorem settle_load (R : LocationIndex) (u : Profile) (c : Comp) (hu : c.user = some u)
    (h2 : c.seen2 ≠ some c.userId) :
    (settle R c).formData = prefill u c.formData := by
  have p0 : pending c = true := by simp [pending, h2]
  have hr : (round R c).seen2 = some (round R c).userId := by
    rw [round_seen2, round_userId]
  simp only [settle, settleFuel, p0, if_true]
  have := (settleFuel_formData R 2 (round R c) hr).1
  simp only [settleFuel] at this
  rw [this, round_formData, if_neg h2, hu]

theorem mount_formData (R : LocationIndex) (u : Profile) :
    (mount R (some u)).formData = prefill u (initial none).formData :=
  settle_load R u (initial (some u)) rfl (by simp [initial])

theorem loaded_formData (R : LocationIndex) (u : Profile) (c : Comp) (h : pending c = false) :
    (step R c (.userLoaded u)).formData = prefill u c.formData := by
  have hq := ((quiet_iff c).1 h).2.1
  exact settle_load R u (setUser u c) rfl (by simp [setUser, hq])

theorem mount_idle (R : LocationIndex) (user : Option Profile) :
    (mount R user).loading = false ∧ (mount R user).sent = [] ∧
    (mount R user).inFlight = 0 ∧ (mount R user).navigations = 0 ∧
    (mount R user).error = none := by
  obtain ⟨_, _, h3, h4, h5, h6, h7⟩ := settleFuel_frame R 3 (initial user)
  exact ⟨h3, h5, h6, h7, h4⟩

/-- C7, amended: the profile-load step copies `education_level`, `country`,
`state` and `city` verbatim and puts the empty string where the record lacks
them; `gender` is copied when non-empty and is 'Prefer not to say' otherwise;
`age` is copied when truthy and is the empty string otherwise; `firstName` and
`lastName` are copied when non-empty, otherwise they are taken from a non-empty
`name` (the piece before its first space, the other pieces joined by spaces),
and are empty only when the name is missing or empty as well.  Mounting with a
profile, or receiving one later, sets the draft to exactly that. -/
theorem prefill_fields (u : Profile) (prev : FormData) :
    (∀ s, u.firstName = some s → s ≠ "" → (prefill u prev).firstName = s) ∧
    ((u.firstName = none ∨ u.firstName = some "") → ∀ n, u.name = some n → n ≠ "" →
      (prefill u prev).firstName = (jsSplitSpace n).headD "") ∧
    ((u.firstName = none ∨ u.firstName = some "") → (u.name = none ∨ u.name = some "") →
      (prefill u prev).firstName = "") ∧
    (∀ s, u.lastName = some s → s ≠ "" → (prefill u prev).lastName = s) ∧
    ((u.lastName = none ∨ u.lastName = some "") → ∀ n, u.name = some n → n ≠ "" →
      (prefill u prev).lastName = jsJoinSpace ((jsSplitSpace n).drop 1)) ∧
    ((u.lastName = none ∨ u.lastName = some "") → (u.name = none ∨ u.name = some "") →
      (prefill u prev).lastName = "") ∧
    (∀ v, u.age = some v → v.truthy = true → (prefill u prev).age = v) ∧
    (∀ v, u.age = some v → v.truthy = false → (prefill u prev).age = .str "") ∧
    (u.age = none → (prefill u prev).age = .str "") ∧
    (∀ s, u.gender = some s → s ≠ "" → (prefill u prev).gender = s) ∧
    ((u.gender = none ∨ u.gender = some "") →
      (prefill u prev).gender = "Prefer not to say") ∧
    (∀ s, u.education_level = some s → (prefill u prev).education_level = s) ∧
    (u.education_level = none → (prefill u prev).education_level = "") ∧
    (∀ s, u.country = some s → (prefill u prev).country = s) ∧
    (u.country = none → (prefill u prev).country = "") ∧
    (∀ s, u.state = some s → (prefill u prev).state = s) ∧
    (u.state = none → (prefill u prev).state = "") ∧
    (∀ s, u.city = some s → (prefill u prev).city = s) ∧
    (u.city = none → (prefill u prev).city = "") ∧
    (∀ R, (mount R (some u)).formData = prefill u (initial none).formData) ∧
    (∀ R c, Reachable R c → (step R c (.userLoaded u)).formData = prefill u c.formData) := by
  have hv : ∀ (x : Option String) (s : String), x = some s → orElse x "" = s := by
    intro x s hx
    rw [hx]
    simp only [orElse]
    split_ifs with h0
    · exact h0.symm
    · rfl
  refine ⟨?_, ?_, ?_, ?_, ?_, ?_, ?_, ?_, ?_, ?_, ?_, ?_, ?_, ?_, ?_, ?_, ?_, ?_, ?_, ?_, ?_⟩
  · intro s hs hne
    simp [prefill, hs, orElse, hne]
  · rintro (h | h) n hn hne <;> simp [prefill, h, hn, orElse, hne]
  · rintro (h | h) (hn | hn) <;> simp [prefill, h, hn, orElse]
  · intro s hs hne
    simp [prefill, hs, orElse, hne]
  · rintro (h | h) n hn hne <;> simp [prefill, h, hn, orElse, hne]
  · rintro (h | h) (hn | hn) <;> simp [prefill, h, hn, orElse]
  · intro v hv1 ht
    simp [prefill, hv1, ht]
  · intro v hv1 ht
    simp [prefill, hv1, ht]
  · intro h
    simp [prefill, h]
  · intro s hs hne
    simp [prefill, hs, orElse, hne]
  · rintro (h | h) <;> simp [prefill, h, orElse]
  · exact fun s hs => hv _ s hs
  · intro h
    simp [prefill, h, orElse]
  · exact fun s hs => hv _ s hs
  · intro h
    simp [prefill, h, orElse]
  · exact fun s hs => hv _ s hs
  · intro h
    simp [prefill, h, orElse]
  · exact fun s hs => hv _ s hs
  · intro h
    simp [prefill, h, orElse]
  · exact fun R => mount_formData R u
  · exact fun R c hc => loaded_formData R u c (reachable_quiet R c hc)

/-- C7 as stated fails: a record without `firstName` and `lastName` but with a
name gets both from the name instead of the empty string, a stored age of zero
is replaced by the empty string, and an empty stored gender by the default. -/
theorem prefill_not_verbatim :
    adaProfile.firstName = none ∧ adaProfile.lastName = none ∧
    (mount sampleIndex (some adaProfile)).formData.firstName = "Ada" ∧
    (mount sampleIndex (some adaProfile)).formData.lastName = "Lovelace" ∧
    adaProfile.age = some (.num (.fin false 0 0)) ∧
    (mount sampleIndex (some adaProfile)).formData.age = .str "" ∧
    adaProfile.gender = some "" ∧
    (mount sampleIndex (some adaProfile)).formData.gender = "Prefer not to say" := by
  rw [mount_formData]
  decide

/-- C10: a profile with a name and no first or last name is loaded and submitted
without edits.  The draft holds the part of the name before its first space and
the rest after that space, and the payload name is the name trimmed, whatever
spaces the name contains: that is the payload `handleSubmit` builds from the
loaded draft, and the one sent when the form lets the submit through. -/
theorem name_round_trip (R : LocationIndex) (u : Profile) (n : String)
    (hn : u.name = some n) (hf : u.firstName = none) (hl : u.lastName = none) (c : Comp)
    (hstart : c = mount R (some u) ∨ c = step R (mount R none) (.userLoaded u)) :
    c.formData.firstName = String.mk (n.data.takeWhile (fun x => x != ' ')) ∧
    c.formData.lastName = String.mk ((n.data.dropWhile (fun x => x != ' ')).drop 1) ∧
    (profileData c.formData).name = jsTrim n ∧
    (handleSubmitStart c).sent = [profileData c.formData] ∧
    ((render c).submitAllowed = true → (step R c .submit).sent = [profileData c.formData]) ∧
    ∀ p ∈ (step R c .submit).sent, p.name = jsTrim n := by
  have hform : c.formData = prefill u (initial none).formData := by
    rcases hstart with h | h
    · rw [h, mount_formData]
    · rw [h, loaded_formData R u (mount R none) (settle_quiet R (initial none))]
      rfl
  have hidle : c.loading = false ∧ c.sent = [] := by
    rcases hstart with h | h
    · rw [h]
      exact ⟨(mount_idle R _).1, (mount_idle R _).2.1⟩
    · obtain ⟨_, _, h3, _, h5, _, _⟩ := settleFuel_frame R 3 (setUser u (mount R none))
      rw [h]
      exact ⟨h3.trans (mount_idle R _).1, h5.trans (mount_idle R _).2.1⟩
  have hfirst : c.formData.firstName = String.mk (n.data.takeWhile (fun x => x != ' ')) := by
    rw [hform]
    simp only [prefill, hf, hn, orElse]
    split_ifs with h0
    · rw [h0]
      rfl
    · simp only [jsSplitSpace]
      rw [← splitSpaceChars_head]
      cases splitSpaceChars n.data <;> rfl
  have hlast : c.formData.lastName =
      String.mk ((n.data.dropWhile (fun x => x != ' ')).drop 1) := by
    rw [hform]
    simp only [prefill, hl, hn, orElse]
    split_ifs with h0
    · rw [h0]
      rfl
    · simp only [jsSplitSpace]
      rw [← join_split_tail]
  have hname : (profileData c.formData).name = jsTrim n := by
    simp only [profileData, jsTrim, hfirst, hlast, String.data_append]
    rw [trim_head_space_tail]
  have hstart2 : (handleSubmitStart c).sent = [profileData c.formData] := by
    simp [handleSubmitStart, hidle.2]
  have hstep : (step R c .submit).sent = ((Event.submit).handle R c).sent :=
    (settleFuel_frame R 3 ((Event.submit).handle R c)).2.2.2.2.1
  refine ⟨hfirst, hlast, hname, hstart2, ?_, ?_⟩
  · intro hall
    rw [hstep]
    simp only [Event.handle, hall, if_true]
    exact hstart2
  · intro p hp
    rw [hstep] at hp
    simp only [Event.handle] at hp
    split_ifs at hp
    · rw [hstart2] at hp
      simp only [List.mem_singleton] at hp
      rw [hp, hname]
    · rw [hidle.2] at hp
      simp at hp

theorem name_round_trip_witness :
    (profileData (mount sampleIndex (some spacedProfile)).formData).name = "Ada  Lovelace" :=
  (name_round_trip sampleIndex spacedProfile " Ada  Lovelace " rfl rfl rfl
    (mount sampleIndex (some spacedProfile)) (Or.inl rfl)).2.2.1.trans (by decide)

/-! ## Numbers from text -/

theorem dropWhile_of_head (p : Char → Bool) (l : List Char)
    (h : ∀ c, l.head? = some c → p c = false) : l.dropWhile p = l := by
  cases l with
  | nil => rfl
  | cons a t => simp [List.dropWhile_cons, h a rfl]

/-- Text without white space has nothing to trim. -/
theorem trimChars_of_no_ws (l : List Char) (h : ∀ c ∈ l, isJsWhiteSpace c = false) :
    trimChars l = l := by
  unfold trimChars
  rw [dropWhile_of_head _ l, dropWhile_of_head _ l.reverse, List.reverse_reverse]
  · intro c hc
    exact h c (List.mem_reverse.1 (List.mem_of_mem_head? hc))
  · intro c hc
    exact h c (List.mem_of_mem_head? hc)

theorem takeWhile_all (p : Char → Bool) (l : List Char) (h : ∀ c ∈ l, p c = true) :
    l.takeWhile p = l := by
  induction l with
  | nil => rfl
  | cons a t ih =>
    have ha := h a (List.mem_cons_self a t)
    simp only [List.takeWhile_cons, ha, if_true]
    rw [ih (fun c hc => h c (List.mem_cons_of_mem a hc))]

/-- Digits followed by something that does not start with a digit: `takeWhile`
gives the digits and `dropWhile` the rest. -/
theorem span_digits (ds tail : List Char) (hd : ∀ c ∈ ds, isDecDigit c = true)
    (ht : ∀ c, tail.head? = some c → isDecDigit c = false) :
    (ds ++ tail).takeWhile isDecDigit = ds ∧ (ds ++ tail).dropWhile isDecDigit = tail := by
  induction ds with
  | nil =>
    cases tail with
    | nil => exact ⟨rfl, rfl⟩
    | cons a t => simp [List.takeWhile_cons, List.dropWhile_cons, ht a rfl]
  | cons a t ih =>
    have ha := hd a (List.mem_cons_self a t)
    obtain ⟨i1, i2⟩ := ih (fun c hc => hd c (List.mem_cons_of_mem a hc))
    simp [List.takeWhile_cons, List.dropWhile_cons, ha, i1, i2]

theorem parseExponent_chars (s : Option Bool) (ds : List Char) (hne : ds ≠ [])
    (hd : ∀ c ∈ ds, isDecDigit c = true) :
    parseExponent (signChars s ++ ds) =
      some (if s = some true then -(digitsVal 10 ds : Int) else (digitsVal 10 ds : Int)) := by
  have hall : ds.all isDecDigit = true := by simpa using hd
  have hplus : isDecDigit '+' = false := by decide
  have hminus : isDecDigit '-' = false := by decide
  rcases s with _ | _ | _
  · simp only [signChars, List.nil_append]
    unfold parseExponent
    split
    · have := hd '+' (by simp)
      rw [hplus] at this
      exact absurd this (by decide)
    · have := hd '-' (by simp)
      rw [hminus] at this
      exact absurd this (by decide)
    · simp [hne, hall]
  · simp [signChars, parseExponent, hne, hall]
  · simp [signChars, parseExponent, hne, hall]

theorem expChars_head (n : Numeral) :
    ∀ c, n.expChars.head? = some c → c = 'e' ∨ c = 'E' := by
  intro c hc
  unfold Numeral.expChars at hc
  rcases hx : n.exponent with _ | ⟨upper, s, ds⟩
  · simp [hx] at hc
  · cases upper <;> simp [hx] at hc <;> simp [← hc]

theorem parseUnsignedDecimal_numeral (neg : Bool) (n : Numeral) (h : n.WellFormed) :
    parseUnsignedDecimal neg (n.intDigits ++ (n.fracChars ++ n.expChars)) =
      decimalValue neg n.mantissa n.exp10 := by
  obtain ⟨hi, hf, hsome, he⟩ := h
  have hedig : ∀ c, n.expChars.head? = some c → isDecDigit c = false := by
    intro c hc
    rcases expChars_head n c hc with h | h <;> rw [h] <;> decide
  have htail : ∀ c, (n.fracChars ++ n.expChars).head? = some c → isDecDigit c = false := by
    intro c hc
    unfold Numeral.fracChars at hc
    rcases hx : n.fracDigits with _ | f
    · rw [hx] at hc
      exact hedig c (by simpa using hc)
    · rw [hx] at hc
      simp at hc
      rw [← hc]
      decide
  obtain ⟨s1, s2⟩ := span_digits n.intDigits _ hi htail
  -- the exponent part
  have hexp : ∀ (m : Nat) (k : Nat),
      (match n.expChars with
        | [] => decimalValue neg m (-(k : Int))
        | e :: r =>
          if e = 'e' ∨ e = 'E' then
            match parseExponent r with
            | some x => decimalValue neg m (x - (k : Int))
            | none => JsNum.nan
          else JsNum.nan) =
      decimalValue neg m ((match n.exponent with
        | some (_, some true, ds) => -(digitsVal 10 ds : Int)
        | some (_, _, ds) => (digitsVal 10 ds : Int)
        | none => 0) - (k : Int)) := by
    intro m k
    unfold Numeral.expChars
    rcases hx : n.exponent with _ | ⟨upper, s, ds⟩
    · simp
    · obtain ⟨hne, hd⟩ := he upper s ds hx
      have hp := parseExponent_chars s ds hne hd
      rcases s with _ | _ | _ <;> cases upper <;> simp [hp]
  unfold parseUnsignedDecimal
  simp only [s1, s2]
  unfold Numeral.fracChars Numeral.mantissa Numeral.exp10
  rcases hx : n.fracDigits with _ | f
  · have hint : n.intDigits ≠ [] := by
      rcases hsome with h | ⟨f, hf1, _⟩
      · exact h
      · rw [hx] at hf1
        exact absurd hf1 (by simp)
    have hnodot : ∀ r, n.expChars ≠ '.' :: r := by
      intro r hr
      rcases expChars_head n '.' (by rw [hr]; rfl) with h | h <;> exact absurd h (by decide)
    simp only [List.nil_append, Option.getD_none, List.append_nil, List.length_nil]
    have := hexp (digitsVal 10 n.intDigits) 0
    rw [if_neg (by simp [hint])]
    simpa using this
  · have hfd := hf f hx
    obtain ⟨t1, t2⟩ := span_digits f n.expChars hfd hedig
    have hnot : ¬(n.intDigits = [] ∧ f = []) := by
      rintro ⟨h1, h2⟩
      rcases hsome with h | ⟨g, hg1, hg2⟩
      · exact h h1
      · rw [hx] at hg1
        cases hg1
        exact hg2 h2
    simp only [List.cons_append, t1, t2, Option.getD_some, hnot, if_false]
    exact hexp _ _

theorem numeral_chars_ok (n : Numeral) (h : n.WellFormed) :
    ∀ c ∈ signChars n.sign ++ (n.intDigits ++ (n.fracChars ++ n.expChars)),
      isNumeralChar c = true := by
  obtain ⟨hi, hf, _, he⟩ := h
  have hd : ∀ c, isDecDigit c = true → isNumeralChar c = true := by
    intro c hc
    simp [isNumeralChar, hc]
  intro c hc
  simp only [List.mem_append] at hc
  rcases hc with hc | hc | hc | hc
  · rcases hs : n.sign with _ | _ | _ <;> rw [hs] at hc <;> simp [signChars] at hc <;>
      rw [hc] <;> decide
  · exact hd c (hi c hc)
  · unfold Numeral.fracChars at hc
    rcases hx : n.fracDigits with _ | f
    · simp [hx] at hc
    · rw [hx] at hc
      rcases List.mem_cons.1 hc with h | h
      · rw [h]; decide
      · exact hd c (hf f hx c h)
  · unfold Numeral.expChars at hc
    rcases hx : n.exponent with _ | ⟨upper, s, ds⟩
    · simp [hx] at hc
    · rw [hx] at hc
      simp only [List.mem_cons, List.mem_append] at hc
      rcases hc with h | h | h
      · cases upper <;> simp at h <;> rw [h] <;> decide
      · rcases s with _ | _ | _ <;> simp [signChars] at h <;> rw [h] <;> decide
      · exact hd c ((he upper s ds hx).2 c h)

theorem isDecDigit_not_ws (c : Char) (h : isDecDigit c = true) : isJsWhiteSpace c = false := by
  simp only [isDecDigit, Bool.and_eq_true, decide_eq_true_eq] at h
  simp only [isJsWhiteSpace, Bool.or_eq_false_iff, Bool.and_eq_false_iff, beq_eq_false_iff_ne,
    decide_eq_false_iff_not]
  omega

theorem isNumeralChar_not_ws (c : Char) (h : isNumeralChar c = true) :
    isJsWhiteSpace c = false := by
  simp only [isNumeralChar, Bool.or_eq_true, beq_iff_eq] at h
  rcases h with ((((h | h) | h) | h) | h) | h
  · exact isDecDigit_not_ws c h
  all_goals rw [h]; decide

theorem body_head (n : Numeral) (h : n.WellFormed) :
    ∃ c r, n.intDigits ++ (n.fracChars ++ n.expChars) = c :: r ∧
      (isDecDigit c = true ∨ c = '.') := by
  obtain ⟨hi, _, hsome, _⟩ := h
  rcases hint : n.intDigits with _ | ⟨a, t⟩
  · rcases hsome with h | ⟨f, hf1, _⟩
    · exact absurd hint h
    · refine ⟨'.', f ++ n.expChars, ?_, Or.inr rfl⟩
      simp [Numeral.fracChars, hf1]
  · exact ⟨a, t ++ (n.fracChars ++ n.expChars), rfl, Or.inl (hi a (by rw [hint]; simp))⟩

theorem parseDecimal_numeral (n : Numeral) (h : n.WellFormed) :
    parseDecimal (signChars n.sign ++ (n.intDigits ++ (n.fracChars ++ n.expChars))) =
      n.value := by
  obtain ⟨c, r, hbody, hc⟩ := body_head n h
  have hpu := fun neg => parseUnsignedDecimal_numeral neg n h
  have hcI : c ≠ 'I' := by
    rcases hc with hc | hc
    · intro h0
      rw [h0] at hc
      exact absurd hc (by decide)
    · rw [hc]; decide
  have hinf : n.intDigits ++ (n.fracChars ++ n.expChars) ≠ "Infinity".data := by
    rw [hbody]
    intro h0
    have : c = 'I' := by
      have := congrArg List.head? h0
      simpa using this
    exact hcI this
  unfold Numeral.value
  rcases hs : n.sign with _ | _ | _
  · have hplus : ∀ t, n.intDigits ++ (n.fracChars ++ n.expChars) ≠ '+' :: t := by
      intro t h0
      rw [hbody] at h0
      have : c = '+' := by simpa using congrArg List.head? h0
      rcases hc with hc | hc
      · rw [this] at hc; exact absurd hc (by decide)
      · rw [this] at hc; exact absurd hc (by decide)
    have hminus : ∀ t, n.intDigits ++ (n.fracChars ++ n.expChars) ≠ '-' :: t := by
      intro t h0
      rw [hbody] at h0
      have : c = '-' := by simpa using congrArg List.head? h0
      rcases hc with hc | hc
      · rw [this] at hc; exact absurd hc (by decide)
      · rw [this] at hc; exact absurd hc (by decide)
    simp only [signChars, List.nil_append]
    unfold parseDecimal
    split
    · rename_i t heq
      exact absurd heq (hplus t)
    · rename_i t heq
      exact absurd heq (hminus t)
    · simp only [hinf, if_false, hpu]
      rfl
  · simp only [signChars, List.singleton_append, parseDecimal, hinf, if_false, hpu]
    rfl
  · simp only [signChars, List.singleton_append, parseDecimal, hinf, if_false, hpu]
    rfl

/-- The call `Number` on a well-formed numeral is the Number value for the number it
denotes. -/
theorem stringToNumber_numeral (n : Numeral) (h : n.WellFormed) :
    stringToNumber n.text = n.value := by
  have hok := numeral_chars_ok n h
  have htrim := trimChars_of_no_ws _ (fun c hc => isNumeralChar_not_ws c (hok c hc))
  obtain ⟨c, r, hbody, _⟩ := body_head n h
  have hne : signChars n.sign ++ (n.intDigits ++ (n.fracChars ++ n.expChars)) ≠ [] := by
    rw [hbody]
    simp
  have radix : ∀ (x : Char) (t : List Char), isNumeralChar x = false →
      signChars n.sign ++ (n.intDigits ++ (n.fracChars ++ n.expChars)) ≠ '0' :: x :: t := by
    intro x t hx heq
    have := hok x (by rw [heq]; simp)
    rw [hx] at this
    exact absurd this (by decide)
  unfold stringToNumber Numeral.text
  simp only [htrim]
  split
  · rename_i heq
    exact absurd heq hne
  · rename_i t heq
    exact absurd heq (radix 'b' t (by decide))
  · rename_i t heq
    exact absurd heq (radix 'B' t (by decide))
  · rename_i t heq
    exact absurd heq (radix 'o' t (by decide))
  · rename_i t heq
    exact absurd heq (radix 'O' t (by decide))
  · rename_i t heq
    exact absurd heq (radix 'x' t (by decide))
  · rename_i t heq
    exact absurd heq (radix 'X' t (by decide))
  · exact parseDecimal_numeral n h

/-! ## Rounding to binary64 -/

theorem bitLengthAux_spec (fuel : Nat) : ∀ n, n ≤ fuel →
    n < 2 ^ bitLengthAux fuel n ∧ (n ≠ 0 → 2 ^ (bitLengthAux fuel n - 1) ≤ n) := by
  induction fuel with
  | zero =>
    intro n hn
    have : n = 0 := by omega
    subst this
    simp [bitLengthAux]
  | succ f ih =>
    intro n hn
    simp only [bitLengthAux]
    split_ifs with h0
    · subst h0
      simp
    · have hlt : n / 2 ≤ f := by omega
      obtain ⟨h1, h2⟩ := ih (n / 2) hlt
      refine ⟨?_, fun _ => ?_⟩
      · rw [pow_succ]
        omega
      · simp only [Nat.add_sub_cancel]
        by_cases hz : n / 2 = 0
        · have hb : bitLengthAux f (n / 2) = 0 := by
            cases f with
            | zero => rfl
            | succ g => simp [bitLengthAux, hz]
          rw [hb]
          simp
          omega
        · have := h2 hz
          have hpos : 0 < bitLengthAux f (n / 2) := by
            by_contra hc
            have hb : bitLengthAux f (n / 2) = 0 := by omega
            rw [hb] at h1
            simp at h1
            exact hz h1
          have : 2 ^ bitLengthAux f (n / 2) = 2 * 2 ^ (bitLengthAux f (n / 2) - 1) := by
            conv_lhs =>
              rw [show bitLengthAux f (n / 2) = (bitLengthAux f (n / 2) - 1) + 1 by omega]
            rw [pow_succ]
            ring
          omega

/-- The bit length is the number of binary digits: `2^(l-1) ≤ n < 2^l`. -/
theorem bitLength_spec (n : Nat) (hn : n ≠ 0) :
    2 ^ (bitLength n - 1) ≤ n ∧ n < 2 ^ bitLength n ∧ 0 < bitLength n := by
  obtain ⟨h1, h2⟩ := bitLengthAux_spec n n le_rfl
  refine ⟨h2 hn, h1, ?_⟩
  by_contra hc
  have hb : bitLength n = 0 := by omega
  unfold bitLength at hb
  rw [hb] at h1
  simp at h1
  exact hn h1

theorem reduceTwos_pow (n j : Nat) : reduceTwos (n * 2 ^ j) j = (n, 0) := by
  induction j with
  | zero => simp [reduceTwos]
  | succ j ih =>
    have h1 : n * 2 ^ (j + 1) % 2 = 0 := by
      rw [pow_succ, ← Nat.mul_assoc]
      exact Nat.mul_mod_left _ _
    have h2 : n * 2 ^ (j + 1) / 2 = n * 2 ^ j := by
      rw [pow_succ, ← Nat.mul_assoc]
      exact Nat.mul_div_cancel _ (by decide)
    simp only [reduceTwos, h1, if_true, h2]
    exact ih

theorem roundHalfEven_one (n : Nat) : roundHalfEven n 1 = n := by
  simp [roundHalfEven, Nat.mod_one]

set_option exponentiation.threshold 2000 in
/-- Whole numbers below `2^53` are binary64 values: rounding leaves them alone. -/
theorem binary64_nat (neg : Bool) (n : Nat) (h : n < 2 ^ 53) :
    binary64 neg n 1 = .fin neg n 0 := by
  by_cases hn : n = 0
  · subst hn
    simp [binary64]
  obtain ⟨h1, h2, h3⟩ := bitLength_spec n hn
  have hbl : bitLength n ≤ 53 := by
    by_contra hc
    have : 2 ^ 53 ≤ 2 ^ (bitLength n - 1) := Nat.pow_le_pow_right (by decide) (by omega)
    omega
  have hb1 : bitLength 1 = 1 := by decide
  have hfl : floorLog2 n 1 = (bitLength n : Int) - 1 := by
    simp only [floorLog2, hb1]
    rw [if_pos]
    · simp
    · left
      refine ⟨by omega, ?_⟩
      have : ((bitLength n : Int) - ((1 : Nat) : Int)).toNat = bitLength n - 1 := by omega
      rw [this]
      simpa using h1
  simp only [binary64, hn, if_false, hfl]
  have hk : max ((bitLength n : Int) - 1 - 52) (-1074) = (bitLength n : Int) - 53 := by omega
  rw [hk]
  by_cases hk0 : bitLength n = 53
  · rw [if_pos (by omega)]
    have : ((bitLength n : Int) - 53).toNat = 0 := by omega
    rw [this]
    simp only [pow_zero, mul_one, roundHalfEven_one]
    rw [if_neg]
    have : (2:Nat) ^ 53 < 2 ^ 1024 := Nat.pow_lt_pow_right (by decide) (by decide)
    omega
  · rw [if_neg (by omega)]
    have : (-((bitLength n : Int) - 53)).toNat = 53 - bitLength n := by omega
    rw [this, roundHalfEven_one, reduceTwos_pow]
    simp

theorem digitsVal_cons (c : Char) (ds : List Char) :
    digitsVal 10 (c :: ds) = digitVal c * 10 ^ ds.length + digitsVal 10 ds := by
  have gen : ∀ (l : List Char) (acc : Nat),
      l.foldl (fun a x => a * 10 + digitVal x) acc =
        acc * 10 ^ l.length + l.foldl (fun a x => a * 10 + digitVal x) 0 := by
    intro l
    induction l with
    | nil => intro acc; simp
    | cons x xs ih =>
      intro acc
      simp only [List.foldl_cons, List.length_cons]
      rw [ih (acc * 10 + digitVal x), ih (0 * 10 + digitVal x)]
      ring
  simp only [digitsVal, List.foldl_cons]
  rw [gen ds (0 * 10 + digitVal c)]
  ring

theorem digitChar_dec (k : Nat) (hk : k < 10) :
    isDecDigit (Nat.digitChar k) = true ∧ digitVal (Nat.digitChar k) = k := by
  interval_cases k <;> exact ⟨by decide, by decide⟩

theorem toDigitsCore_val (f : Nat) : ∀ (n : Nat) (ds : List Char), n < f →
    (∀ c ∈ ds, isDecDigit c = true) →
    (∀ c ∈ Nat.toDigitsCore 10 f n ds, isDecDigit c = true) ∧
    Nat.toDigitsCore 10 f n ds ≠ [] ∧
    digitsVal 10 (Nat.toDigitsCore 10 f n ds) = n * 10 ^ ds.length + digitsVal 10 ds := by
  induction f with
  | zero => intro n ds hn; omega
  | succ f ih =>
    intro n ds hn hds
    obtain ⟨hd1, hd2⟩ := digitChar_dec (n % 10) (Nat.mod_lt n (by decide))
    have hcons : ∀ c ∈ Nat.digitChar (n % 10) :: ds, isDecDigit c = true := by
      intro c hc
      rcases List.mem_cons.1 hc with h | h
      · rw [h]; exact hd1
      · exact hds c h
    simp only [Nat.toDigitsCore]
    split_ifs with h0
    · refine ⟨hcons, by simp, ?_⟩
      rw [digitsVal_cons, hd2]
      have : n % 10 = n := by omega
      rw [this]
    · have hlt : n / 10 < f := by omega
      obtain ⟨i1, i2, i3⟩ := ih (n / 10) (Nat.digitChar (n % 10) :: ds) hlt hcons
      refine ⟨i1, i2, ?_⟩
      rw [i3, digitsVal_cons, hd2, List.length_cons, pow_succ]
      have hdm : n = 10 * (n / 10) + n % 10 := (Nat.div_add_mod n 10).symm
      conv_rhs => rw [hdm]
      ring

/-- The call `Number` on a non-empty text of decimal digits is the Number value for
the whole number the digits denote. -/
theorem stringToNumber_digits (ds : List Char) (hne : ds ≠ [])
    (h : ∀ c ∈ ds, isDecDigit c = true) :
    stringToNumber (String.mk ds) = binary64 false (digitsVal 10 ds) 1 := by
  have hwf : Numeral.WellFormed
      { sign := none, intDigits := ds, fracDigits := none, exponent := none } :=
    ⟨h, by simp, Or.inl hne, by simp⟩
  have := stringToNumber_numeral _ hwf
  simpa [Numeral.text, Numeral.fracChars, Numeral.expChars, signChars, Numeral.value,
    Numeral.mantissa, Numeral.exp10, decimalValue] using this

/-- The call `Number` on the decimal text of a natural number is the Number value for
it, which below `2^53` is the number itself. -/
theorem stringToNumber_toString (n : Nat) :
    stringToNumber (toString n) = binary64 false n 1 ∧
    (n < 2 ^ 53 → stringToNumber (toString n) = .fin false n 0) := by
  obtain ⟨h1, h2, h3⟩ := toDigitsCore_val (n + 1) n [] (Nat.lt_succ_self n) (by simp)
  have ht : toString n = String.mk (Nat.toDigitsCore 10 (n + 1) n []) := rfl
  have hv : digitsVal 10 (Nat.toDigitsCore 10 (n + 1) n []) = n := by
    rw [h3]
    simp [digitsVal]
  have hs : stringToNumber (toString n) = binary64 false n 1 := by
    rw [ht, stringToNumber_digits _ h2 h1, hv]
  exact ⟨hs, fun hlt => hs.trans (binary64_nat false n hlt)⟩

theorem truthy_nat (neg : Bool) (n : Nat) : (JsNum.fin neg n 0).truthy = decide (n ≠ 0) := by
  by_cases h : n = 0 <;> simp [JsNum.truthy, JsNum.isZero, h]

set_option exponentiation.threshold 5000 in
set_option maxRecDepth 100000 in
/-- The call `Number` at some texts: rounding to the nearest binary64 value with ties
to the even significand, overflow to infinity, underflow to zero. -/
theorem stringToNumber_examples :
    stringToNumber "29" = .fin false 29 0 ∧
    stringToNumber "" = .fin false 0 0 ∧
    stringToNumber "0" = .fin false 0 0 ∧
    stringToNumber "twenty" = .nan ∧
    stringToNumber "1e-400" = .fin false 0 0 ∧
    stringToNumber "-1.5" = .fin true 3 (-1) ∧
    stringToNumber "9007199254740993" = .fin false 9007199254740992 0 ∧
    stringToNumber "9007199254740995" = .fin false 9007199254740996 0 ∧
    stringToNumber "1e400" = .inf false := by
  decide

set_option exponentiation.threshold 5000 in
set_option maxRecDepth 100000 in
/-- The ends of the binary64 range: the least subnormal, half of it (a tie, to
even, so zero), the greatest finite value and the least text rounding past it. -/
theorem stringToNumber_range :
    stringToNumber "5e-324" = .fin false 1 (-1074) ∧
    stringToNumber "2.4703282292062327e-324" = .fin false 0 0 ∧
    stringToNumber "2.4703282292062328e-324" = .fin false 1 (-1074) ∧
    stringToNumber "2.2250738585072014e-308" = .fin false 1 (-1022) ∧
    stringToNumber "1.7976931348623157e308" = .fin false (2 ^ 1024 - 2 ^ 971) 0 ∧
    stringToNumber "1.7976931348623158e308" = .fin false (2 ^ 1024 - 2 ^ 971) 0 ∧
    stringToNumber "1.7976931348623159e308" = .inf false ∧
    stringToNumber "0.1" = .fin false 3602879701896397 (-55) ∧
    stringToNumber "-Infinity" = .inf true ∧
    stringToNumber "0x1F" = .fin false 31 0 ∧
    stringToNumber " 42 " = .fin false 42 0 := by
  decide

/-- The payload age when the draft age is text: the Number the text converts to,
or nothing when that is falsy. -/
theorem profileData_age_aux (d : FormData) (s : String) (v : JsNum) (hs : d.age = .str s)
    (hv : stringToNumber s = v) :
    (profileData d).age = if v.truthy then some v else none := by
  have hnum : jsNumber d.age = v := by rw [hs]; exact hv
  simp only [profileData, hnum]

/-- C4, amended: the payload carries `Number(age) || null`.  Its age is the
Number the draft age converts to whenever that is neither `NaN` nor zero, and is
absent otherwise.  For numeric text the Number is the binary64 value nearest to
the number the text denotes (an infinity beyond the binary64 range), which for a
whole number below `2^53` is that number ("29" gives 29); so the age is absent
for the empty text, for text that
is not numeric, and for numeric text whose value is zero or rounds to zero ("0",
"1e-400").  `profileData` is a total function: building the payload cannot
fail. -/
theorem profileData_age (d : FormData) :
    ((jsNumber d.age).truthy = true → (profileData d).age = some (jsNumber d.age)) ∧
    ((jsNumber d.age).truthy = false → (profileData d).age = none) ∧
    (jsNumber d.age = .nan → (profileData d).age = none) ∧
    (∀ n : Numeral, n.WellFormed → d.age = .str n.text → n.value.truthy = true →
      (profileData d).age = some n.value) ∧
    (∀ n : Numeral, n.WellFormed → d.age = .str n.text → n.value.truthy = false →
      (profileData d).age = none) ∧
    (∀ k : Nat, d.age = .str (toString k) → k ≠ 0 → k < 2 ^ 53 →
      (profileData d).age = some (.fin false k 0)) ∧
    (d.age = .str "29" → (profileData d).age = some (.fin false 29 0)) ∧
    (d.age = .str "" → (profileData d).age = none) ∧
    (d.age = .str "0" → (profileData d).age = none) ∧
    (d.age = .str "twenty" → (profileData d).age = none) ∧
    (d.age = .str "1e-400" → (profileData d).age = none) ∧
    (d.age = .str "-1.5" → (profileData d).age = some (.fin true 3 (-1))) ∧
    (d.age = .str "9007199254740993" →
      (profileData d).age = some (.fin false 9007199254740992 0)) ∧
    (d.age = .str "9007199254740995" →
      (profileData d).age = some (.fin false 9007199254740996 0)) ∧
    (d.age = .str "1e400" → (profileData d).age = some (.inf false)) := by
  have ht : (jsNumber d.age).truthy = true → (profileData d).age = some (jsNumber d.age) := by
    intro h
    simp [profileData, h]
  have hf : (jsNumber d.age).truthy = false → (profileData d).age = none := by
    intro h
    simp [profileData, h]
  have hval := profileData_age_aux d
  obtain ⟨e1, e2, e3, e4, e5, e6, e7, e8, e9⟩ := stringToNumber_examples
  refine ⟨ht, hf, ?_, ?_, ?_, ?_, ?_, ?_, ?_, ?_, ?_, ?_, ?_, ?_, ?_⟩
  · intro h
    apply hf
    rw [h]
    rfl
  · intro n hwf hn hv
    rw [hval _ _ hn (stringToNumber_numeral n hwf), if_pos hv]
  · intro n hwf hn hv
    rw [hval _ _ hn (stringToNumber_numeral n hwf), if_neg (by simp [hv])]
  · intro k hk hne hlt
    rw [hval _ _ hk ((stringToNumber_toString k).2 hlt), truthy_nat]
    simp [hne]
  · intro h
    rw [hval _ _ h e1]
    rfl
  · intro h
    rw [hval _ _ h e2]
    rfl
  · intro h
    rw [hval _ _ h e3]
    rfl
  · intro h
    rw [hval _ _ h e4]
    rfl
  · intro h
    rw [hval _ _ h e5]
    rfl
  · intro h
    rw [hval _ _ h e6]
    rfl
  · intro h
    rw [hval _ _ h e7]
    rfl
  · intro h
    rw [hval _ _ h e8]
    rfl
  · intro h
    rw [hval _ _ h e9]
    rfl

/-- C4 as stated fails at the numeric texts "0" and "1e-400": `Number` gives zero
for both, and the payload age is absent.  At "9007199254740993" the payload age
is a number, but the nearest binary64 value and not the number written. -/
theorem age_zero_absent :
    stringToNumber "0" = .fin false 0 0 ∧
    (handleChange .age "0" (mount sampleIndex none)).formData.age = .str "0" ∧
    (profileData (handleChange .age "0" (mount sampleIndex none)).formData).age = none ∧
    stringToNumber "1e-400" = .fin false 0 0 ∧
    (handleChange .age "1e-400" (mount sampleIndex none)).formData.age = .str "1e-400" ∧
    (profileData (handleChange .age "1e-400" (mount sampleIndex none)).formData).age = none ∧
    (profileData
      (handleChange .age "9007199254740993" (mount sampleIndex none)).formData).age =
        some (.fin false 9007199254740992 0) :=
  ⟨stringToNumber_examples.2.2.1, rfl,
    ((profileData_age_aux _ _ _ rfl stringToNumber_examples.2.2.1).trans rfl),
    stringToNumber_examples.2.2.2.2.1, rfl,
    ((profileData_age_aux _ _ _ rfl stringToNumber_examples.2.2.2.2.1).trans rfl),
    ((profileData_age_aux _ _ _ rfl stringToNumber_examples.2.2.2.2.2.2.1).trans rfl)⟩

/-! ## Submitting -/

/-- The form can be submitted only while `loading` is false: the submit button is
rendered with `disabled` bound to `loading`. -/
theorem submitAllowed_idle (c : Comp) (h : (render c).submitAllowed = true) :
    c.loading = false := by
  simp only [View.submitAllowed, render, Bool.and_eq_true, Bool.not_eq_true'] at h
  exact h.1

theorem handle_flight (R : LocationIndex) (ev : Event) (c : Comp)
    (h : (c.loading = true ∧ c.inFlight = 1) ∨ (c.loading = false ∧ c.inFlight = 0)) :
    ((ev.handle R c).loading = true ∧ (ev.handle R c).inFlight = 1) ∨
    ((ev.handle R c).loading = false ∧ (ev.handle R c).inFlight = 0) := by
  cases ev with
  | userLoaded u => exact h
  | countryChange x => exact h
  | stateChange x => exact h
  | change name value => exact h
  | submit =>
    simp only [Event.handle]
    split_ifs with hl
    · have hidle := submitAllowed_idle c hl
      rcases h with h | h
      · rw [hidle] at h
        exact absurd h.1 (by decide)
      · left
        exact ⟨rfl, by simp [handleSubmitStart, h.2]⟩
    · exact h
  | submitSettled result =>
    simp only [Event.handle]
    split_ifs with h0
    · exact h
    · rcases h with h | h
      · right
        rcases result with (_ | _) | _ <;> exact ⟨rfl, by simp [handleSubmitFinish, h.2]⟩
      · exact absurd h.2 h0

theorem reachable_flight (R : LocationIndex) (c : Comp) (h : Reachable R c) :
    (c.loading = true ∧ c.inFlight = 1) ∨ (c.loading = false ∧ c.inFlight = 0) := by
  obtain ⟨user, evs, rfl⟩ := h
  induction evs using List.reverseRecOn with
  | nil =>
    right
    exact ⟨(mount_idle R user).1, (mount_idle R user).2.2.1⟩
  | append_singleton evs ev ih =>
    simp only [run, List.foldl_append, List.foldl_cons, List.foldl_nil, step] at ih ⊢
    obtain ⟨_, _, h3, _, _, h6, _⟩ :=
      settleFuel_frame R 3 (ev.handle R (List.foldl (step R) (mount R user) evs))
    simp only [settle]
    rw [h3, h6]
    exact handle_flight R ev _ ih

/-- C5: in every state the page reaches through its events, at most one call of
`updateProfile` is in flight, and one is in flight exactly while `loading`
holds.  While it holds the rendered submit button is disabled, the form cannot
be submitted, and a submit changes nothing: `handleSubmit` does not run again
and no second call is issued. -/
theorem submit_gated (R : LocationIndex) (c : Comp) (h : Reachable R c) :
    c.inFlight ≤ 1 ∧ (c.loading = true ↔ c.inFlight = 1) ∧
    (c.loading = true →
      (render c).submitDisabled = true ∧ (render c).submitAllowed = false ∧
      step R c .submit = c) := by
  have hq := reachable_quiet R c h
  rcases reachable_flight R c h with ⟨h1, h2⟩ | ⟨h1, h2⟩
  · refine ⟨by omega, by simp [h1, h2], ?_⟩
    intro _
    have hd : (render c).submitDisabled = true := h1
    have hna : (render c).submitAllowed = false := by
      simp [View.submitAllowed, hd]
    refine ⟨hd, hna, ?_⟩
    simp only [step, Event.handle, hna, Bool.false_eq_true, if_false]
    exact settle_of_quiet R c hq
  · refine ⟨by omega, by simp [h1, h2], ?_⟩
    intro hl
    rw [h1] at hl
    exact absurd hl (by decide)

theorem submit_gated_witness :
    (run sampleIndex (japanEdits ++ [.submit]) (mount sampleIndex none)).loading = true ∧
    (run sampleIndex (japanEdits ++ [.submit]) (mount sampleIndex none)).sent.length = 1 ∧
    step sampleIndex (run sampleIndex (japanEdits ++ [.submit]) (mount sampleIndex none))
        .submit =
      run sampleIndex (japanEdits ++ [.submit]) (mount sampleIndex none) := by
  have hr : Reachable sampleIndex
      (run sampleIndex (japanEdits ++ [.submit]) (mount sampleIndex none)) := by
    refine ⟨none, japanEdits ++ [.submit], ?_⟩
    rfl
  exact ⟨by decide, by decide, ((submit_gated sampleIndex _ hr).2.2 (by decide)).2.2⟩

/-- C6: when `updateProfile` rejects with an error `e`, `handleSubmit` ends with
`error` set to `e.response.data.message` when the error carries a non-empty one,
and to 'Failed to save details' when the response, its data or the message is
missing or the message is empty; `loading` is false, `navigate` is not called and
the draft is untouched.  Navigation happens once per submit exactly when
`updateProfile` succeeds.  On a page reached through its events, a submit the
form lets through followed by the settling of the call is one such run of
`handleSubmit`.  (A rejection with `null` or `undefined` in place of an error
makes the catch clause itself throw: `error` stays cleared, the rest is the
same.) -/
theorem handleSubmit_outcome (c : Comp) :
    (∀ m, m ≠ "" →
      (handleSubmit
        (.error (some { response := some { data := some { message := some m } } }))
        c).error = some m) ∧
    (handleSubmit
      (.error (some { response := some { data := some { message := some "" } } }))
      c).error = some "Failed to save details" ∧
    (handleSubmit
      (.error (some { response := some { data := some { message := none } } }))
      c).error = some "Failed to save details" ∧
    (handleSubmit (.error (some { response := some { data := none } })) c).error =
      some "Failed to save details" ∧
    (handleSubmit (.error (some { response := none })) c).error =
      some "Failed to save details" ∧
    (handleSubmit
      (.error (some
        { response := some { data := some { message := some "Email already registered" } } }))
      c).error = some "Email already registered" ∧
    (∀ rejection, (handleSubmit (.error rejection) c).loading = false ∧
      (handleSubmit (.error rejection) c).navigations = c.navigations ∧
      (handleSubmit (.error rejection) c).formData = c.formData) ∧
    (handleSubmit (.ok ()) c).navigations = c.navigations + 1 ∧
    (handleSubmit (.ok ()) c).loading = false ∧
    (handleSubmit (.ok ()) c).error = none ∧
    (∀ result, (handleSubmit result c).navigations = c.navigations + 1 ↔ result = .ok ()) ∧
    (∀ result, (handleSubmit result c).sent = c.sent ++ [profileData c.formData]) ∧
    (∀ R result, Reachable R c → (render c).submitAllowed = true →
      run R [.submit, .submitSettled result] c = handleSubmit result c) ∧
    (handleSubmit (.error none) c).error = none := by
  refine ⟨?_, rfl, rfl, rfl, rfl, rfl, ?_, rfl, rfl, rfl, ?_, ?_, ?_, rfl⟩
  · intro m hne
    simp [handleSubmit, handleSubmitFinish, errorMessage, SubmitError.message, orElse, hne]
  · intro rejection
    cases rejection <;> exact ⟨rfl, rfl, rfl⟩
  · intro result
    rcases result with (_ | e) | u <;>
      simp [handleSubmit, handleSubmitFinish, handleSubmitStart]
  · intro result
    rcases result with (_ | e) | u <;> rfl
  · intro R result hr hall
    have hq := reachable_quiet R c hr
    have hq1 : pending (handleSubmitStart c) = false := hq
    have hq2 : pending (handleSubmitFinish result (handleSubmitStart c)) = false := by
      rcases result with (_ | e) | u <;> exact hq
    have h0 : (handleSubmitStart c).inFlight ≠ 0 := by simp [handleSubmitStart]
    simp only [run, List.foldl_cons, List.foldl_nil, step, Event.handle, hall, if_true]
    rw [settle_of_quiet R _ hq1, if_neg h0, settle_of_quiet R _ hq2]
    rfl

/-! ## The payload -/

/-- What `trim` does: the text is white space, then the trimmed text, then white
space, and the trimmed text neither starts nor ends with white space. -/
theorem trimChars_spec (l : List Char) :
    ∃ pre post, l = pre ++ trimChars l ++ post ∧
      pre.all isJsWhiteSpace = true ∧ post.all isJsWhiteSpace = true ∧
      (∀ c, (trimChars l).head? = some c → isJsWhiteSpace c = false) ∧
      (∀ c, (trimChars l).getLast? = some c → isJsWhiteSpace c = false) := by
  have hlast : ∀ c, (trimChars l).getLast? = some c → isJsWhiteSpace c = false := by
    intro c hc
    unfold trimChars at hc
    rw [List.getLast?_reverse] at hc
    have := List.head?_dropWhile_not isJsWhiteSpace (l.dropWhile isJsWhiteSpace).reverse
    rw [hc] at this
    exact this
  have hmid : l.dropWhile isJsWhiteSpace =
      trimChars l ++ ((l.dropWhile isJsWhiteSpace).reverse.takeWhile isJsWhiteSpace).reverse := by
    unfold trimChars
    rw [← List.reverse_append, List.takeWhile_append_dropWhile, List.reverse_reverse]
  refine ⟨l.takeWhile isJsWhiteSpace,
    ((l.dropWhile isJsWhiteSpace).reverse.takeWhile isJsWhiteSpace).reverse, ?_, ?_, ?_, ?_,
    hlast⟩
  · rw [List.append_assoc, ← hmid, List.takeWhile_append_dropWhile]
  · exact List.all_takeWhile
  · rw [List.all_reverse]
    exact List.all_takeWhile
  · intro c hc
    have := List.head?_dropWhile_not isJsWhiteSpace l
    rw [hmid, List.head?_append, hc] at this
    exact this

theorem edit_change (R : LocationIndex) (c : Comp) (d : FormData) (name : Field)
    (value : String) (h : EditingDraft c d) :
    EditingDraft (step R c (.change name value)) (d.set name value) := by
  obtain ⟨hq, hl, hs, hf⟩ := h
  refine ⟨settle_quiet R _, ?_, ?_, ?_⟩
  · exact (step_sent R c (.change name value)).2.trans hl
  · exact (step_sent R c (.change name value)).1.trans hs
  · rw [step_formData R c (.change name value) hq (by simp), ← hf]
    rfl

theorem edit_country (R : LocationIndex) (c : Comp) (d : FormData) (countryName : String)
    (h : EditingDraft c d) :
    EditingDraft (step R c (.countryChange countryName))
      { d with country := countryName, state := "", city := "" } := by
  obtain ⟨hq, hl, hs, hf⟩ := h
  refine ⟨settle_quiet R _, ?_, ?_, ?_⟩
  · exact (step_sent R c (.countryChange countryName)).2.trans hl
  · exact (step_sent R c (.countryChange countryName)).1.trans hs
  · rw [step_formData R c (.countryChange countryName) hq (by simp), ← hf]
    rfl

/-- Outside India the form shows text inputs for state and city: whether it can be
submitted depends on the draft and on `loading` alone. -/
theorem render_free_text (c : Comp) (d : FormData) (h : EditingDraft c d)
    (hc : d.country ≠ "India") :
    (render c).submitAllowed =
      (render { initial none with formData := d }).submitAllowed := by
  obtain ⟨_, hl, _, hf⟩ := h
  simp only [render, hf, hl, hc, if_false, initial]

/-- The user fills in the form for Japan and submits: one payload is sent, whatever
the reference data. -/
theorem japan_run_sent (R : LocationIndex) :
    (run R (japanEdits ++ [.submit]) (mount R none)).sent =
      [{ firstName := "Aiko", lastName := "Sato", gender := "Prefer not to say",
         education_level := "High School", country := "Japan", state := "Tokyo",
         city := "Shibuya", name := "Aiko Sato", age := some (.fin false 29 0) }] := by
  have h0 : EditingDraft (mount R none) (initial none).formData :=
    ⟨settle_quiet R _, (mount_idle R none).1, (mount_idle R none).2.1,
      (mount_none_fields R).1⟩
  simp only [japanEdits, run, List.cons_append, List.nil_append, List.foldl_cons,
    List.foldl_nil]
  have h1 := edit_change R _ _ .firstName "Aiko" h0
  generalize step R (mount R none) (.change .firstName "Aiko") = c1 at h1 ⊢
  have h2 := edit_change R _ _ .lastName "Sato" h1
  generalize step R c1 (.change .lastName "Sato") = c2 at h2 ⊢
  have h3 := edit_change R _ _ .age "29" h2
  generalize step R c2 (.change .age "29") = c3 at h3 ⊢
  have h4 := edit_change R _ _ .education_level "High School" h3
  generalize step R c3 (.change .education_level "High School") = c4 at h4 ⊢
  have h5 := edit_country R _ _ "Japan" h4
  generalize step R c4 (.countryChange "Japan") = c5 at h5 ⊢
  have h6 := edit_change R _ _ .state "Tokyo" h5
  generalize step R c5 (.change .state "Tokyo") = c6 at h6 ⊢
  have h7 := edit_change R _ _ .city "Shibuya" h6
  generalize step R c6 (.change .city "Shibuya") = c7 at h7 ⊢
  have hall : (render c7).submitAllowed = true := by
    rw [render_free_text c7 _ h7 (by decide)]
    decide
  rw [(step_sent R c7 .submit).1]
  simp only [Event.handle, hall, if_true, handleSubmitStart, h7.2.2.1, h7.2.2.2,
    List.nil_append]
  have hnum : stringToNumber "29" = .fin false 29 0 := stringToNumber_examples.1
  simp only [profileData, FormData.set, initial, jsNumber, hnum]
  decide

/-- C8: the payload name is the first name, one space and the last name, with the
white space at both ends trimmed away, and every other draft field except the age
is carried verbatim.  When the user fills in the form with country 'Japan' and
the state typed as 'Tokyo' and submits, the payload sent holds state 'Tokyo',
whatever the reference data is: the run does not consult it. -/
theorem profileData_fields (d : FormData) :
    (profileData d).name = jsTrim (d.firstName ++ " " ++ d.lastName) ∧
    (∃ pre post, d.firstName.data ++ [' '] ++ d.lastName.data =
        pre ++ (profileData d).name.data ++ post ∧
      pre.all isJsWhiteSpace = true ∧ post.all isJsWhiteSpace = true ∧
      (∀ c, (profileData d).name.data.head? = some c → isJsWhiteSpace c = false) ∧
      (∀ c, (profileData d).name.data.getLast? = some c → isJsWhiteSpace c = false)) ∧
    (profileData d).firstName = d.firstName ∧
    (profileData d).lastName = d.lastName ∧
    (profileData d).gender = d.gender ∧
    (profileData d).education_level = d.education_level ∧
    (profileData d).country = d.country ∧
    (profileData d).state = d.state ∧
    (profileData d).city = d.city ∧
    (∀ R : LocationIndex,
      (run R (japanEdits ++ [.submit]) (mount R none)).sent =
        [{ firstName := "Aiko", lastName := "Sato", gender := "Prefer not to say",
           education_level := "High School", country := "Japan", state := "Tokyo",
           city := "Shibuya", name := "Aiko Sato", age := some (.fin false 29 0) }]) := by
  refine ⟨rfl, ?_, rfl, rfl, rfl, rfl, rfl, rfl, rfl, ?_⟩
  · have := trimChars_spec (d.firstName.data ++ [' '] ++ d.lastName.data)
    simpa [profileData, jsTrim, String.data_append] using this
  · exact japan_run_sent

/-- C9 fails on these runs.  The user picks India and the state with code KA,
then a stored profile for Japan arrives; or a profile for India and Karnataka is
loaded and a profile for Japan follows.  Either way the draft country is Japan
and `states` is empty, but `selectedStateCode` is still KA and `cities` still
holds the cities of KA. -/
theorem stale_selection_after_load :
    (run sampleIndex [.countryChange "India", .stateChange "KA", .userLoaded japanProfile]
      (mount sampleIndex none)).formData.country = "Japan" ∧
    (run sampleIndex [.countryChange "India", .stateChange "KA", .userLoaded japanProfile]
      (mount sampleIndex none)).states = [] ∧
    (run sampleIndex [.countryChange "India", .stateChange "KA", .userLoaded japanProfile]
      (mount sampleIndex none)).selectedStateCode = "KA" ∧
    (run sampleIndex [.countryChange "India", .stateChange "KA", .userLoaded japanProfile]
      (mount sampleIndex none)).cities = [{ name := "Bengaluru" }, { name := "Mysuru" }] ∧
    (run sampleIndex [.userLoaded japanProfile]
      (mount sampleIndex (some indiaProfile))).formData.country = "Japan" ∧
    (run sampleIndex [.userLoaded japanProfile]
      (mount sampleIndex (some indiaProfile))).selectedStateCode = "KA" ∧
    (run sampleIndex [.userLoaded japanProfile]
      (mount sampleIndex (some indiaProfile))).cities =
        [{ name := "Bengaluru" }, { name := "Mysuru" }] := by
  decide

end SkillSync
